import Mathlib

/-!
Shallow embedding of the JerryScript core studied here: the ECMA value and
completion model, the generic object model with its property lists, the general
object operations ([[Get]], [[Put]], [[CanPut]], [[Delete]], [[DefaultValue]],
[[DefineOwnProperty]]), the conversion routines (`ecma-conversion.cpp`), the
relational opcode handlers, `typeof`, and the interpreter driver
(`run_int` / `run_int_loop` / `run_int_from_pos`).

Conventions of the embedding:
  * machine doubles (`ecma_number_t`) are abstracted to a record carrying the
    three predicates the embedded code inspects (`is_nan`, `is_zero`,
    `is_negative`) plus an opaque bit payload; C `==` on doubles is modelled by
    `ecma_number_c_eq` (false when either operand is NaN, true for two zeros);
  * interned strings are Lean `String`s, magic strings are string literals;
  * the heap is a list of objects addressed by index; helpers that in C follow
    a raw pointer take the index and look the object up, a dangling index
    behaving as a fresh empty object (all theorems below carry validity
    hypotheses where it matters);
  * `JERRY_ASSERT` is a debug-build check and is modelled as a no-op
    (release semantics); claims about asserts are stated as theorems instead;
  * prototype-chain walks take an explicit fuel argument standing for the
    acyclicity of the chain that the C code assumes;
  * operations of the repository that are not part of the sources studied here
    (builtins, [[Call]], the literal table, the register file accessors) enter
    as explicit function parameters (oracles) or as definitions whose doc
    comment starts with `Modelled from the spec:`.
-/

namespace Jerry

/-- Object identifiers: indices into the heap list. -/
abbrev ObjId := Nat

/-- Abstraction of `ecma_number_t` (an IEEE-754 double): the predicates the
embedded code inspects plus an opaque payload standing for the bit pattern. -/
structure ecma_number_t where
  is_nan : Bool
  is_zero : Bool
  is_negative : Bool
  payload : Nat
deriving Repr, DecidableEq

/-- Model of C `==` on doubles: false when either operand is NaN, true for
`+0 == -0`, bit-payload comparison otherwise. -/
def ecma_number_c_eq (x y : ecma_number_t) : Bool :=
  if x.is_nan || y.is_nan then false
  else if x.is_zero && y.is_zero then true
  else x == y

/-- ECMA values (`ecma_value_t`): the simple constants, numbers, strings and
object references.  `empty` is the internal sentinel value. -/
inductive Value where
  | undefined : Value
  | null : Value
  | empty : Value
  | boolean : Bool → Value
  | number : ecma_number_t → Value
  | string : String → Value
  | object : ObjId → Value
deriving Repr, DecidableEq

def ecma_is_value_undefined (v : Value) : Bool := v matches .undefined

def ecma_is_value_null (v : Value) : Bool := v matches .null

def ecma_is_value_empty (v : Value) : Bool := v matches .empty

def ecma_is_value_boolean (v : Value) : Bool := v matches .boolean _

def ecma_is_value_true (v : Value) : Bool := v matches .boolean true

def ecma_is_value_number (v : Value) : Bool := v matches .number _

def ecma_is_value_string (v : Value) : Bool := v matches .string _

def ecma_is_value_object (v : Value) : Bool := v matches .object _

/-- Completion discriminants (`ecma_completion_type_t`): `empty` is not a
discriminant of its own — an empty completion is a normal completion whose
value is the `empty` sentinel. -/
inductive CompletionType where
  | normal : CompletionType
  | ret : CompletionType
  | throw : CompletionType
  | exit : CompletionType
  | meta : CompletionType
deriving Repr, DecidableEq

/-- Completion values (`ecma_completion_value_t`): a discriminant and a value. -/
structure Completion where
  type : CompletionType
  value : Value
deriving Repr, DecidableEq

def ecma_make_normal_completion_value (v : Value) : Completion := ⟨.normal, v⟩

def ecma_make_simple_completion_value (v : Value) : Completion := ⟨.normal, v⟩

/-- An empty completion: normal with the `empty` sentinel value.  This is also
the state of a default-constructed `ecma_completion_value_t`.
Modelled from the spec: the C++ default constructor of
`ecma_completion_value_t` is not among the sources studied here; per the spec
a skipped operation leaves the surrounding handler on its normal-empty path. -/
def ecma_make_empty_completion_value : Completion := ⟨.normal, .empty⟩

def ecma_make_throw_completion_value (v : Value) : Completion := ⟨.throw, v⟩

/-- Exit completion carrying ECMA true when the flag is set, false otherwise
(`ecma_make_exit_completion_value`). -/
def ecma_make_exit_completion_value (b : Bool) : Completion := ⟨.exit, .boolean b⟩

def ecma_is_completion_value_normal (c : Completion) : Bool := c.type == .normal

def ecma_is_completion_value_throw (c : Completion) : Bool := c.type == .throw

def ecma_is_completion_value_exit (c : Completion) : Bool := c.type == .exit

def ecma_is_completion_value_meta (c : Completion) : Bool := c.type == .meta

def ecma_is_completion_value_ret (c : Completion) : Bool := c.type == .ret

def ecma_is_completion_value_empty (c : Completion) : Bool :=
  ecma_is_completion_value_normal c && ecma_is_value_empty c.value

def ecma_is_completion_value_normal_true (c : Completion) : Bool :=
  ecma_is_completion_value_normal c && c.value == .boolean true

/-- Standard error kinds (`ecma_standard_error_t`). -/
inductive StandardError where
  | typeError : StandardError
  | referenceError : StandardError
deriving Repr, DecidableEq

/-- Modelled from the spec: `ecma_new_standard_error` allocates a fresh error
object; the heap bookkeeping of error objects is outside the sources studied
here, so a thrown standard error is embedded as a throw completion tagged with
the error kind, kept apart from user-thrown values by a reserved payload. -/
def ecma_make_standard_error_throw (e : StandardError) : Completion :=
  ⟨.throw, .string (match e with
    | .typeError => "#TypeError"
    | .referenceError => "#ReferenceError")⟩

/-- Kinds of named properties: named-data carries a packed value and the
writable attribute, named-accessor carries nullable getter and setter object
references. -/
inductive PropKind where
  | namedData : Value → Bool → PropKind
  | namedAccessor : Option ObjId → Option ObjId → PropKind
deriving Repr, DecidableEq

/-- A named property node (`ecma_property_t`, named kinds): name, kind-specific
payload, and the enumerable/configurable attributes shared by both kinds. -/
structure Property where
  name : String
  kind : PropKind
  enumerable : Bool
  configurable : Bool
deriving Repr, DecidableEq

def Property.isNamedData (p : Property) : Bool := p.kind matches .namedData _ _

def Property.isNamedAccessor (p : Property) : Bool := p.kind matches .namedAccessor _ _

/-- Value of a named-data property (`ecma_get_named_data_property_value`).
The C routine reads a union member; on a named-accessor node (a debug-assert
violation) the read is modelled as the `undefined` value. -/
def ecma_get_named_data_property_value (p : Property) : Value :=
  match p.kind with
  | .namedData v _ => v
  | .namedAccessor _ _ => .undefined

def Property.getObj (p : Property) : Option ObjId :=
  match p.kind with
  | .namedAccessor g _ => g
  | .namedData _ _ => none

def Property.setObj (p : Property) : Option ObjId :=
  match p.kind with
  | .namedAccessor _ s => s
  | .namedData _ _ => none

def ecma_is_property_writable (p : Property) : Bool :=
  match p.kind with
  | .namedData _ w => w
  | .namedAccessor _ _ => false

def ecma_is_property_enumerable (p : Property) : Bool := p.enumerable

def ecma_is_property_configurable (p : Property) : Bool := p.configurable

/-- Lexical-environment discriminator of an object
(`ecma_lexical_environment_type_t` together with the is-lex-env flag). -/
inductive ObjectKind where
  | generalObject : ObjectKind
  | lexEnvDeclarative : Option ObjId → ObjectKind
  | lexEnvObjectBound : Option ObjId → ObjId → Bool → ObjectKind
deriving Repr, DecidableEq

/-- An ECMA object header plus its named-property list.  `is_function` is the
callable discriminator (Modelled from the spec: `ecma_op_is_callable` tests the
function object types, which live outside the sources studied here).
`class_tag` holds the value of the CLASS internal property. -/
structure EcmaObject where
  prototype : Option ObjId
  extensible : Bool
  kind : ObjectKind
  is_function : Bool
  class_tag : String
  properties : List Property
deriving Repr, DecidableEq

def EcmaObject.isLexEnv (o : EcmaObject) : Bool :=
  match o.kind with
  | .generalObject => false
  | _ => true

/-- The heap: objects addressed by list index. -/
abbrev Heap := List EcmaObject

/-- Dangling-index fallback object (no theorem below depends on it: each one
carries a heap-validity hypothesis where the object's header is read). -/
def emptyEcmaObject : EcmaObject :=
  ⟨none, false, .generalObject, false, "Object", []⟩

def Heap.obj (h : Heap) (o : ObjId) : EcmaObject := (h.get? o).getD emptyEcmaObject

/-- Replace the object at the given index. -/
def Heap.setObj (h : Heap) (o : ObjId) (obj : EcmaObject) : Heap := h.set o obj

def Heap.updateObj (h : Heap) (o : ObjId) (f : EcmaObject → EcmaObject) : Heap :=
  h.set o (f (h.obj o))

/-- `ecma_find_named_property`: first property with the given name. -/
def ecma_find_named_property (h : Heap) (o : ObjId) (name : String) : Option Property :=
  (h.obj o).properties.find? (fun p => p.name == name)

/-- `ecma_create_named_data_property`: prepend a fresh named-data property with
an undefined value and the given attributes; returns the new node. -/
def ecma_create_named_data_property (h : Heap) (o : ObjId) (name : String)
    (is_writable is_enumerable is_configurable : Bool) : Property × Heap :=
  let p : Property := ⟨name, .namedData .undefined is_writable, is_enumerable, is_configurable⟩
  (p, h.updateObj o (fun obj => { obj with properties := p :: obj.properties }))

/-- `ecma_create_named_accessor_property`: prepend a fresh named-accessor
property; returns the new node. -/
def ecma_create_named_accessor_property (h : Heap) (o : ObjId) (name : String)
    (get_p set_p : Option ObjId) (is_enumerable is_configurable : Bool) : Property × Heap :=
  let p : Property := ⟨name, .namedAccessor get_p set_p, is_enumerable, is_configurable⟩
  (p, h.updateObj o (fun obj => { obj with properties := p :: obj.properties }))

/-- `ecma_delete_property`: remove the (unique) property with the given name
from the object's property list.  The C routine takes the node pointer; per the
name-uniqueness invariant removing by name removes that node. -/
def ecma_delete_property (h : Heap) (o : ObjId) (name : String) : Heap :=
  h.updateObj o (fun obj =>
    { obj with properties := obj.properties.eraseP (fun p => p.name == name) })

/-- Update (in place) the property with the given name. -/
def Heap.updateNamedProperty (h : Heap) (o : ObjId) (name : String)
    (f : Property → Property) : Heap :=
  h.updateObj o (fun obj =>
    { obj with properties := obj.properties.map (fun p => if p.name == name then f p else p) })

/-- `ecma_named_data_property_assign_value`: store a value into a named-data
property (debug-asserted to be named-data; a named-accessor node is left
unchanged). -/
def ecma_named_data_property_assign_value (h : Heap) (o : ObjId) (name : String)
    (v : Value) : Heap :=
  h.updateNamedProperty o name (fun p =>
    match p.kind with
    | .namedData _ w => { p with kind := .namedData v w }
    | .namedAccessor _ _ => p)

def ecma_set_property_writable_attr (h : Heap) (o : ObjId) (name : String)
    (w : Bool) : Heap :=
  h.updateNamedProperty o name (fun p =>
    match p.kind with
    | .namedData v _ => { p with kind := .namedData v w }
    | .namedAccessor _ _ => p)

def ecma_set_property_enumerable_attr (h : Heap) (o : ObjId) (name : String)
    (e : Bool) : Heap :=
  h.updateNamedProperty o name (fun p => { p with enumerable := e })

def ecma_set_property_configurable_attr (h : Heap) (o : ObjId) (name : String)
    (c : Bool) : Heap :=
  h.updateNamedProperty o name (fun p => { p with configurable := c })

/-- Set the getter reference of a named-accessor property (`ECMA_SET_POINTER`
on `u.named_accessor_property.get_p`; a named-data node is left unchanged). -/
def ecma_set_accessor_get (h : Heap) (o : ObjId) (name : String)
    (g : Option ObjId) : Heap :=
  h.updateNamedProperty o name (fun p =>
    match p.kind with
    | .namedAccessor _ s => { p with kind := .namedAccessor g s }
    | .namedData _ _ => p)

/-- Set the setter reference of a named-accessor property. -/
def ecma_set_accessor_set (h : Heap) (o : ObjId) (name : String)
    (s : Option ObjId) : Heap :=
  h.updateNamedProperty o name (fun p =>
    match p.kind with
    | .namedAccessor g _ => { p with kind := .namedAccessor g s }
    | .namedData _ _ => p)

/-- Operation-time property descriptor (`ecma_property_descriptor_t`). -/
structure ecma_property_descriptor_t where
  is_value_defined : Bool
  value : Value
  is_writable_defined : Bool
  is_writable : Bool
  is_enumerable_defined : Bool
  is_enumerable : Bool
  is_configurable_defined : Bool
  is_configurable : Bool
  is_get_defined : Bool
  get_p : Option ObjId
  is_set_defined : Bool
  set_p : Option ObjId
deriving Repr, DecidableEq

/-- Modelled from the spec: `ecma_make_empty_property_descriptor` lives in
`ecma-helpers.cpp`, which is not among the sources studied here; per the
spec's data model an "empty" descriptor has all six `*_defined` flags false
(and default payloads). -/
def ecma_make_empty_property_descriptor : ecma_property_descriptor_t :=
  ⟨false, .undefined, false, false, false, false, false, false, false, none, false, none⟩

/-- SameValue operation (`ecma_op_same_value`). -/
def ecma_op_same_value (x y : Value) : Bool :=
  let is_types_equal :=
    (ecma_is_value_undefined x && ecma_is_value_undefined y) ||
    (ecma_is_value_null x && ecma_is_value_null y) ||
    (ecma_is_value_boolean x && ecma_is_value_boolean y) ||
    (ecma_is_value_number x && ecma_is_value_number y) ||
    (ecma_is_value_string x && ecma_is_value_string y) ||
    (ecma_is_value_object x && ecma_is_value_object y)
  if !is_types_equal then false
  else if ecma_is_value_undefined x || ecma_is_value_null x then true
  else
    match x, y with
    | .number xn, .number yn =>
      if xn.is_nan && yn.is_nan then true
      else if xn.is_zero && yn.is_zero && (xn.is_negative != yn.is_negative) then false
      else ecma_number_c_eq xn yn
    | .string xs, .string ys => xs == ys
    | .boolean _, .boolean _ => ecma_is_value_true x == ecma_is_value_true y
    | .object xo, .object yo => xo == yo
    | _, _ => false

/-- ToBoolean operation (`ecma_op_to_boolean`). -/
def ecma_op_to_boolean (v : Value) : Completion :=
  let boolean : Bool :=
    if ecma_is_value_boolean v then ecma_is_value_true v
    else if ecma_is_value_undefined v || ecma_is_value_null v then false
    else
      match v with
      | .number n => !(n.is_nan || n.is_zero)
      | .string s => !(s.length == 0)
      | _ => true
  ecma_make_simple_completion_value (.boolean boolean)

/-- Modelled from the spec: `ecma_op_is_callable` (in `ecma-function-object`,
outside the sources studied here) holds exactly of object values whose object
type is one of the function types; the embedding carries that discriminator as
the `is_function` field. -/
def ecma_op_is_callable (h : Heap) (v : Value) : Bool :=
  match v with
  | .object o => (h.obj o).is_function
  | _ => false

/-- Oracle for `ecma_op_function_call` ([[Call]] lives outside the sources
studied here): function object, this value, argument list, heap in; completion
and heap out. -/
def CallOracle := ObjId → Value → List Value → Heap → Completion × Heap

/-- Reject sequence (`ecma_reject`): throw a TypeError when the throw flag is
set, else a normal false completion. -/
def ecma_reject (is_throw : Bool) : Completion :=
  if is_throw then ecma_make_standard_error_throw .typeError
  else ecma_make_simple_completion_value (.boolean false)

/-- [[GetOwnProperty]] (`ecma_op_general_object_get_own_property`).  The
`ecma_op_object_get_own_property` dispatcher resolves to this routine for the
general objects all claims below are about. -/
def ecma_op_general_object_get_own_property (h : Heap) (o : ObjId)
    (name : String) : Option Property :=
  ecma_find_named_property h o name

/-- [[GetProperty]] (`ecma_op_general_object_get_property`): own property
first, else recurse into the prototype chain.  The fuel argument bounds the
number of prototype hops and stands for the acyclicity of the chain. -/
def ecma_op_general_object_get_property (h : Heap) (fuel : Nat) (o : ObjId)
    (name : String) : Option Property :=
  match ecma_op_general_object_get_own_property h o name with
  | some prop => some prop
  | none =>
    match (h.obj o).prototype with
    | none => none
    | some proto =>
      match fuel with
      | 0 => none
      | Nat.succ f => ecma_op_general_object_get_property h f proto name

/-- [[CanPut]] (`ecma_op_general_object_can_put`). -/
def ecma_op_general_object_can_put (h : Heap) (fuel : Nat) (o : ObjId)
    (name : String) : Bool :=
  match ecma_op_general_object_get_own_property h o name with
  | some prop =>
    match prop.kind with
    | .namedAccessor _ set_p => if set_p.isNone then false else true
    | .namedData _ _ => ecma_is_property_writable prop
  | none =>
    match (h.obj o).prototype with
    | none => (h.obj o).extensible
    | some proto =>
      match ecma_op_general_object_get_property h fuel proto name with
      | none => (h.obj o).extensible
      | some inherited =>
        match inherited.kind with
        | .namedAccessor _ set_p => if set_p.isNone then false else true
        | .namedData _ _ =>
          if !(h.obj o).extensible then false
          else ecma_is_property_writable inherited

/-- [[Get]] (`ecma_op_general_object_get`). -/
def ecma_op_general_object_get (call : CallOracle) (h : Heap) (fuel : Nat)
    (o : ObjId) (name : String) : Completion × Heap :=
  match ecma_op_general_object_get_property h fuel o name with
  | none => (ecma_make_simple_completion_value .undefined, h)
  | some prop =>
    match prop.kind with
    | .namedData v _ => (ecma_make_normal_completion_value v, h)
    | .namedAccessor getter_p _ =>
      match getter_p with
      | none => (ecma_make_simple_completion_value .undefined, h)
      | some g => call g (.object o) [] h

/-- [[Delete]] (`ecma_op_general_object_delete`). -/
def ecma_op_general_object_delete (h : Heap) (o : ObjId) (name : String)
    (is_throw : Bool) : Completion × Heap :=
  match ecma_op_general_object_get_own_property h o name with
  | none => (ecma_make_simple_completion_value (.boolean true), h)
  | some desc =>
    if ecma_is_property_configurable desc then
      (ecma_make_simple_completion_value (.boolean true), ecma_delete_property h o name)
    else if is_throw then (ecma_make_standard_error_throw .typeError, h)
    else (ecma_make_simple_completion_value (.boolean false), h)

/-- [[DefineOwnProperty]] (`ecma_op_general_object_define_own_property`).
Steps 8–11 are factored into an option (`none` encodes the reject paths);
step 12's attribute stores address the current node by name, which per the
name-uniqueness invariant is the node the C code holds a pointer to (after a
kind switch: the freshly created node). -/
def ecma_op_general_object_define_own_property (h : Heap) (o : ObjId)
    (name : String) (desc : ecma_property_descriptor_t) (is_throw : Bool) :
    Completion × Heap :=
  let is_property_desc_generic_descriptor :=
    !desc.is_value_defined && !desc.is_writable_defined &&
    !desc.is_get_defined && !desc.is_set_defined
  let is_property_desc_data_descriptor :=
    desc.is_value_defined || desc.is_writable_defined
  match ecma_op_general_object_get_own_property h o name with
  | none =>
    -- 3.
    if !(h.obj o).extensible then (ecma_reject is_throw, h)
    -- 4.
    else if is_property_desc_generic_descriptor || is_property_desc_data_descriptor then
      let created := ecma_create_named_data_property h o name
        desc.is_writable desc.is_enumerable desc.is_configurable
      let h2 := ecma_named_data_property_assign_value created.2 o name desc.value
      (ecma_make_simple_completion_value (.boolean true), h2)
    else
      let created := ecma_create_named_accessor_property h o name
        desc.get_p desc.set_p desc.is_enumerable desc.is_configurable
      (ecma_make_simple_completion_value (.boolean true), created.2)
  | some current =>
    -- 5.
    if is_property_desc_generic_descriptor &&
       !desc.is_enumerable_defined && !desc.is_configurable_defined then
      (ecma_make_simple_completion_value (.boolean true), h)
    else
    -- 6.
    let is_current_data_descriptor := current.isNamedData
    let is_current_accessor_descriptor := current.isNamedAccessor
    let is_every_field_in_desc_same :=
      (!desc.is_value_defined ||
        (let prop_value := ecma_get_named_data_property_value current
         is_current_data_descriptor && ecma_op_same_value desc.value prop_value)) &&
      (!desc.is_writable_defined ||
        (is_current_data_descriptor &&
         (desc.is_writable == ecma_is_property_writable current))) &&
      (!desc.is_get_defined ||
        (is_current_accessor_descriptor && (desc.get_p == current.getObj))) &&
      (!desc.is_set_defined ||
        (is_current_accessor_descriptor && (desc.set_p == current.setObj))) &&
      (!desc.is_enumerable_defined ||
        (desc.is_enumerable == ecma_is_property_enumerable current)) &&
      (!desc.is_configurable_defined ||
        (desc.is_configurable == ecma_is_property_configurable current))
    if is_every_field_in_desc_same then
      (ecma_make_simple_completion_value (.boolean true), h)
    else
    -- 7.
    if !ecma_is_property_configurable current &&
       (desc.is_configurable ||
        (desc.is_enumerable_defined &&
         (desc.is_enumerable != ecma_is_property_enumerable current))) then
      (ecma_reject is_throw, h)
    else
    -- 8., 9., 10., 11.
    let steps8to11 : Option Heap :=
      if is_property_desc_generic_descriptor then
        -- 8. no action required
        some h
      else if is_property_desc_data_descriptor != is_current_data_descriptor then
        -- 9.
        if !ecma_is_property_configurable current then none
        else
          let hdel := ecma_delete_property h o name
          if is_current_data_descriptor then
            -- b. (reads enumerable/configurable from the old, deleted node)
            some (ecma_create_named_accessor_property hdel o name none none
              (ecma_is_property_enumerable current)
              (ecma_is_property_configurable current)).2
          else
            -- c.
            some (ecma_create_named_data_property hdel o name false
              (ecma_is_property_enumerable current)
              (ecma_is_property_configurable current)).2
      else if is_property_desc_data_descriptor && is_current_data_descriptor then
        -- 10.
        if !ecma_is_property_configurable current then
          if !ecma_is_property_writable current then
            if desc.is_writable then none
            else
              let prop_value := ecma_get_named_data_property_value current
              if desc.is_value_defined &&
                 !ecma_op_same_value desc.value prop_value then none
              else some h
          else some h
        else some h
      else
        -- 11.
        if !ecma_is_property_configurable current &&
           ((desc.is_get_defined && (desc.get_p != current.getObj)) ||
            (desc.is_set_defined && (desc.set_p != current.setObj))) then none
        else some h
    match steps8to11 with
    | none => (ecma_reject is_throw, h)
    | some h1 =>
      -- 12.
      let h2 := if desc.is_value_defined then
        ecma_named_data_property_assign_value h1 o name desc.value else h1
      let h3 := if desc.is_writable_defined then
        ecma_set_property_writable_attr h2 o name desc.is_writable else h2
      let h4 := if desc.is_get_defined then
        ecma_set_accessor_get h3 o name desc.get_p else h3
      let h5 := if desc.is_set_defined then
        ecma_set_accessor_set h4 o name desc.set_p else h4
      let h6 := if desc.is_enumerable_defined then
        ecma_set_property_enumerable_attr h5 o name desc.is_enumerable else h5
      let h7 := if desc.is_configurable_defined then
        ecma_set_property_configurable_attr h6 o name desc.is_configurable else h6
      (ecma_make_simple_completion_value (.boolean true), h7)

/-- [[Put]] (`ecma_op_general_object_put`).  The setter invocation goes through
the [[Call]] oracle; the `ECMA_TRY_CATCH` around it propagates a throw
completion and otherwise yields the normal true completion.  The null-setter
case is the `JERRY_ASSERT (setter_p.is_not_null ())` branch, unreachable under
[[CanPut]] (theorem `put_setter_assert_unreachable` below); its modelled
fallback is the default-constructed (empty) completion. -/
def ecma_op_general_object_put (call : CallOracle) (h : Heap) (fuel : Nat)
    (o : ObjId) (name : String) (value : Value) (is_throw : Bool) :
    Completion × Heap :=
  -- 1.
  if !ecma_op_general_object_can_put h fuel o name then
    if is_throw then (ecma_make_standard_error_throw .typeError, h)
    else (ecma_make_simple_completion_value (.boolean false), h)
  else
    -- 6.
    let step6 : Heap → Completion × Heap := fun hh =>
      let new_desc := { ecma_make_empty_property_descriptor with
        is_value_defined := true, value := value,
        is_writable_defined := true, is_writable := true,
        is_enumerable_defined := true, is_enumerable := true,
        is_configurable_defined := true, is_configurable := true }
      ecma_op_general_object_define_own_property hh o name new_desc is_throw
    -- 2., 3.
    match ecma_op_general_object_get_own_property h o name with
    | some own_desc =>
      match own_desc.kind with
      | .namedData _ _ =>
        let value_desc := { ecma_make_empty_property_descriptor with
          is_value_defined := true, value := value }
        ecma_op_general_object_define_own_property h o name value_desc is_throw
      | .namedAccessor _ _ =>
        -- own named-accessor: fall through to 4., 5. (get_property returns it)
        match ecma_op_general_object_get_property h fuel o name with
        | some desc =>
          match desc.kind with
          | .namedAccessor _ set_p =>
            match set_p with
            | some setter_p =>
              let called := call setter_p (.object o) [value] h
              if ecma_is_completion_value_throw called.1 then called
              else (ecma_make_simple_completion_value (.boolean true), called.2)
            | none => (ecma_make_empty_completion_value, h)
          | .namedData _ _ => step6 h
        | none => step6 h
    | none =>
      -- 4., 5.
      match ecma_op_general_object_get_property h fuel o name with
      | some desc =>
        match desc.kind with
        | .namedAccessor _ set_p =>
          match set_p with
          | some setter_p =>
            let called := call setter_p (.object o) [value] h
            if ecma_is_completion_value_throw called.1 then called
            else (ecma_make_simple_completion_value (.boolean true), called.2)
          | none => (ecma_make_empty_completion_value, h)
        | .namedData _ _ => step6 h
      | none => step6 h

/-- Preferred-type hint of ToPrimitive (`ecma_preferred_type_hint_t`). -/
inductive PreferredTypeHint where
  | no : PreferredTypeHint
  | number : PreferredTypeHint
  | string : PreferredTypeHint
deriving Repr, DecidableEq

/-- Method name tried on iteration `i` of the [[DefaultValue]] loop, per the
condition `(i == 1 && hint == STRING) || (i == 2 && hint == NUMBER)`. -/
def ecma_op_default_value_function_name (i : Nat) (hint : PreferredTypeHint) : String :=
  if (i == 1 && hint == .string) || (i == 2 && hint == .number) then "toString"
  else "valueOf"

/-- One iteration of the [[DefaultValue]] loop body: `.inl` is an early return
with a completion, `.inr` continues with the updated heap.  The
`call_completion` of a method that is absent or not callable is the
default-constructed completion, i.e. normal-empty (see
`ecma_make_empty_completion_value`). -/
def ecma_op_default_value_try (call : CallOracle) (h : Heap) (fuel : Nat)
    (o : ObjId) (function_name : String) : (Completion × Heap) ⊕ Heap :=
  let got := ecma_op_general_object_get call h fuel o function_name
  if !ecma_is_completion_value_normal got.1 then .inl got
  else
    let function_value := got.1.value
    let called :=
      if ecma_op_is_callable got.2 function_value then
        match function_value with
        | .object func_obj_p => call func_obj_p (.object o) [] got.2
        | _ => (ecma_make_empty_completion_value, got.2)
      else (ecma_make_empty_completion_value, got.2)
    if !ecma_is_completion_value_normal called.1 then .inl called
    else if !ecma_is_completion_value_empty called.1 &&
            !ecma_is_value_object called.1.value then .inl called
    else .inr called.2

/-- [[DefaultValue]] (`ecma_op_general_object_default_value`): resolve the
unspecified hint via the CLASS internal property (Date defaults to string),
then run the two-iteration method-try loop, and throw a TypeError when neither
iteration returned. -/
def ecma_op_general_object_default_value (call : CallOracle) (h : Heap)
    (fuel : Nat) (o : ObjId) (hint : PreferredTypeHint) : Completion × Heap :=
  let hint1 :=
    if hint == .no then
      if (h.obj o).class_tag == "Date" then PreferredTypeHint.string
      else PreferredTypeHint.number
    else hint
  match ecma_op_default_value_try call h fuel o
          (ecma_op_default_value_function_name 1 hint1) with
  | .inl r => r
  | .inr h1 =>
    match ecma_op_default_value_try call h1 fuel o
            (ecma_op_default_value_function_name 2 hint1) with
    | .inl r => r
    | .inr h2 => (ecma_make_standard_error_throw .typeError, h2)

/-- `ecma_op_create_object_object_noarg`: fresh extensible general object with
the Object-prototype builtin as prototype and CLASS internal property
"Object".  The builtin registry is outside the sources studied here, so the
Object-prototype reference is a parameter. -/
def ecma_op_create_object_object_noarg (h : Heap)
    (object_prototype_p : Option ObjId) : ObjId × Heap :=
  (h.length, h ++ [⟨object_prototype_p, true, .generalObject, false, "Object", []⟩])

/-- FromPropertyDescriptor (`ecma_op_from_property_descriptor`): build a fresh
object and define the reflected attribute properties on it.  The branch
between the data pair (value/writable) and the accessor pair (get/set) tests
the `*_defined` flags of the locally initialised `prop_desc`, not of the
`src` argument — translated as in the source. -/
def ecma_op_from_property_descriptor (h : Heap) (object_prototype_p : Option ObjId)
    (src : ecma_property_descriptor_t) : ObjId × Heap :=
  -- 2.
  let created := ecma_op_create_object_object_noarg h object_prototype_p
  let obj_p := created.1
  let prop_desc := { ecma_make_empty_property_descriptor with
    is_value_defined := true,
    is_writable_defined := true, is_writable := true,
    is_enumerable_defined := true, is_enumerable := true,
    is_configurable_defined := true, is_configurable := true }
  -- 3.
  let h2 :=
    if prop_desc.is_value_defined || prop_desc.is_writable_defined then
      -- a.
      let desc_value := { prop_desc with value := src.value }
      let h1 := (ecma_op_general_object_define_own_property created.2 obj_p
        "value" desc_value false).2
      -- b.
      let desc_writable := { prop_desc with value := .boolean src.is_writable }
      (ecma_op_general_object_define_own_property h1 obj_p
        "writable" desc_writable false).2
    else
      -- 4.a.
      let get_value : Value := match src.get_p with
        | none => .undefined
        | some g => .object g
      let desc_get := { prop_desc with value := get_value }
      let h1 := (ecma_op_general_object_define_own_property created.2 obj_p
        "get" desc_get false).2
      -- 4.b.
      let set_value : Value := match src.set_p with
        | none => .undefined
        | some s => .object s
      let desc_set := { prop_desc with value := set_value }
      (ecma_op_general_object_define_own_property h1 obj_p
        "set" desc_set false).2
  let desc_enumerable := { prop_desc with value := .boolean src.is_enumerable }
  let h3 := (ecma_op_general_object_define_own_property h2 obj_p
    "enumerable" desc_enumerable false).2
  let desc_configurable := { prop_desc with value := .boolean src.is_configurable }
  let h4 := (ecma_op_general_object_define_own_property h3 obj_p
    "configurable" desc_configurable false).2
  (obj_p, h4)

/-- State threaded through the attribute blocks of ToPropertyDescriptor:
the accumulated completion, the descriptor being filled, the heap. -/
abbrev ToPropDescState := Completion × ecma_property_descriptor_t × Heap

/-- One boolean-attribute block of ToPropertyDescriptor (steps 3, 4 and 6
share this shape): skipped entirely when a throw is pending or the property is
absent; otherwise [[Get]] the property, ToBoolean it, and record the flag. -/
def ecma_op_to_property_descriptor_bool_field (call : CallOracle) (fuel : Nat)
    (obj_p : ObjId) (name : String)
    (set_field : ecma_property_descriptor_t → Bool → ecma_property_descriptor_t)
    (st : ToPropDescState) : ToPropDescState :=
  let (ret, desc, h) := st
  if ecma_is_completion_value_throw ret then st
  else
    match ecma_op_general_object_get_property h fuel obj_p name with
    | none => st
    | some _ =>
      let got := ecma_op_general_object_get call h fuel obj_p name
      if ecma_is_completion_value_throw got.1 then (got.1, desc, got.2)
      else
        let booleaned := ecma_op_to_boolean got.1.value
        if ecma_is_completion_value_throw booleaned then (booleaned, desc, got.2)
        else (ret, set_field desc (ecma_is_value_true booleaned.value), got.2)

/-- The value block of ToPropertyDescriptor (step 5). -/
def ecma_op_to_property_descriptor_value_field (call : CallOracle) (fuel : Nat)
    (obj_p : ObjId) (st : ToPropDescState) : ToPropDescState :=
  let (ret, desc, h) := st
  if ecma_is_completion_value_throw ret then st
  else
    match ecma_op_general_object_get_property h fuel obj_p "value" with
    | none => st
    | some _ =>
      let got := ecma_op_general_object_get call h fuel obj_p "value"
      if ecma_is_completion_value_throw got.1 then (got.1, desc, got.2)
      else
        (ret, { desc with is_value_defined := true, value := got.1.value }, got.2)

/-- One accessor block of ToPropertyDescriptor (steps 7 and 8 share this
shape): a present property whose value is neither callable nor undefined is a
TypeError; otherwise record the (nullable) function reference. -/
def ecma_op_to_property_descriptor_accessor_field (call : CallOracle) (fuel : Nat)
    (obj_p : ObjId) (name : String)
    (set_field : ecma_property_descriptor_t → Option ObjId → ecma_property_descriptor_t)
    (st : ToPropDescState) : ToPropDescState :=
  let (ret, desc, h) := st
  if ecma_is_completion_value_throw ret then st
  else
    match ecma_op_general_object_get_property h fuel obj_p name with
    | none => st
    | some _ =>
      let got := ecma_op_general_object_get call h fuel obj_p name
      if ecma_is_completion_value_throw got.1 then (got.1, desc, got.2)
      else
        let v := got.1.value
        if !ecma_op_is_callable got.2 v && !ecma_is_value_undefined v then
          (ecma_make_standard_error_throw .typeError, desc, got.2)
        else if ecma_is_value_undefined v then (ret, set_field desc none, got.2)
        else
          match v with
          | .object fn => (ret, set_field desc (some fn), got.2)
          | _ => (ret, set_field desc none, got.2)

/-- ToPropertyDescriptor (`ecma_op_to_property_descriptor`): a non-object is a
TypeError (and the out-descriptor is not written); otherwise the attribute
blocks run in source order (enumerable, configurable, value, writable, get,
set) followed by the step-9 consistency check, and the descriptor is written
out even on a throw. -/
def ecma_op_to_property_descriptor (call : CallOracle) (h : Heap) (fuel : Nat)
    (obj_value : Value) :
    Completion × Option ecma_property_descriptor_t × Heap :=
  -- 1.
  match obj_value with
  | .object obj_p =>
    -- 2.
    let st0 : ToPropDescState :=
      (ecma_make_empty_completion_value, ecma_make_empty_property_descriptor, h)
    -- 3.
    let st1 := ecma_op_to_property_descriptor_bool_field call fuel obj_p "enumerable"
      (fun d b => { d with is_enumerable_defined := true, is_enumerable := b }) st0
    -- 4.
    let st2 := ecma_op_to_property_descriptor_bool_field call fuel obj_p "configurable"
      (fun d b => { d with is_configurable_defined := true, is_configurable := b }) st1
    -- 5.
    let st3 := ecma_op_to_property_descriptor_value_field call fuel obj_p st2
    -- 6.
    let st4 := ecma_op_to_property_descriptor_bool_field call fuel obj_p "writable"
      (fun d b => { d with is_writable_defined := true, is_writable := b }) st3
    -- 7.
    let st5 := ecma_op_to_property_descriptor_accessor_field call fuel obj_p "get"
      (fun d g => { d with is_get_defined := true, get_p := g }) st4
    -- 8.
    let st6 := ecma_op_to_property_descriptor_accessor_field call fuel obj_p "set"
      (fun d s => { d with is_set_defined := true, set_p := s }) st5
    -- 9.
    let ret7 :=
      if ecma_is_completion_value_throw st6.1 then st6.1
      else if (st6.2.1.is_get_defined || st6.2.1.is_set_defined) &&
              (st6.2.1.is_value_defined || st6.2.1.is_writable_defined) then
        ecma_make_standard_error_throw .typeError
      else st6.1
    (ret7, some st6.2.1, st6.2.2)
  | _ => (ecma_make_standard_error_throw .typeError, none, h)

/-- Outer-environment reference of a lexical environment
(`ecma_get_lex_env_outer_reference`; a non-lex-env object is a debug-assert
violation, modelled as no outer). -/
def ecma_get_lex_env_outer_reference (h : Heap) (env : ObjId) : Option ObjId :=
  match (h.obj env).kind with
  | .lexEnvDeclarative outer => outer
  | .lexEnvObjectBound outer _ _ => outer
  | .generalObject => none

/-- HasBinding operation (`ecma_op_has_binding`): property presence for
declarative environments, [[GetProperty]] on the binding object for
object-bound ones. -/
def ecma_op_has_binding (h : Heap) (fuel : Nat) (lex_env_p : ObjId)
    (name : String) : Bool :=
  match (h.obj lex_env_p).kind with
  | .lexEnvDeclarative _ => (ecma_find_named_property h lex_env_p name).isSome
  | .lexEnvObjectBound _ binding_obj_p _ =>
    (ecma_op_general_object_get_property h fuel binding_obj_p name).isSome
  | .generalObject => false

/-- GetBindingValue operation (`ecma_op_get_binding_value`). -/
def ecma_op_get_binding_value (call : CallOracle) (h : Heap) (fuel : Nat)
    (lex_env_p : ObjId) (name : String) (is_strict : Bool) : Completion × Heap :=
  match (h.obj lex_env_p).kind with
  | .lexEnvObjectBound _ binding_obj_p _ =>
    if (ecma_op_general_object_get_property h fuel binding_obj_p name).isNone then
      if is_strict then (ecma_make_standard_error_throw .referenceError, h)
      else (ecma_make_simple_completion_value .undefined, h)
    else ecma_op_general_object_get call h fuel binding_obj_p name
  | _ =>
    -- declarative (`ecma_get_named_data_property` debug-asserts presence;
    -- the absent case falls back to undefined)
    match ecma_find_named_property h lex_env_p name with
    | some property_p =>
      let prop_value := ecma_get_named_data_property_value property_p
      if !ecma_is_property_writable property_p && ecma_is_value_empty prop_value then
        if is_strict then (ecma_make_standard_error_throw .referenceError, h)
        else (ecma_make_simple_completion_value .undefined, h)
      else (ecma_make_normal_completion_value prop_value, h)
    | none => (ecma_make_simple_completion_value .undefined, h)

/-- Modelled from the spec: `ecma_op_resolve_reference_base` (identifier
resolution, outside the sources studied here) walks the lexical-environment
chain and returns the first environment with a binding for the name, or null
when the chain is exhausted.  `chain_fuel` bounds the walk; `none` means the
fuel ran out (the chain is assumed finite). -/
def ecma_op_resolve_reference_base (h : Heap) (fuel : Nat) (chain_fuel : Nat)
    (lex_env_p : Option ObjId) (name : String) : Option (Option ObjId) :=
  match lex_env_p with
  | none => some none
  | some env =>
    if ecma_op_has_binding h fuel env name then some (some env)
    else
      match chain_fuel with
      | 0 => none
      | Nat.succ f =>
        ecma_op_resolve_reference_base h fuel f
          (ecma_get_lex_env_outer_reference h env) name

/-- Modelled from the spec: `ecma_op_get_value_lex_env_base` (outside the
sources studied here) reads an identifier through its base environment, which
is GetBindingValue. -/
def ecma_op_get_value_lex_env_base (call : CallOracle) (h : Heap) (fuel : Nat)
    (ref_base_lex_env_p : ObjId) (name : String) (is_strict : Bool) :
    Completion × Heap :=
  ecma_op_get_binding_value call h fuel ref_base_lex_env_p name is_strict

/-- Bytecode instructions (`opcode_t`), restricted to the opcodes the claims
are about; `other` stands for the remaining opcode kinds, whose handlers enter
the interpreter theorems through the dispatch oracle. -/
inductive Opcode where
  | regVarDecl : Nat → Nat → Opcode
  | metaOp : Nat → Opcode
  | exitval : Nat → Opcode
  | lessThan : Nat → Nat → Nat → Opcode
  | greaterThan : Nat → Nat → Nat → Opcode
  | lessOrEqualThan : Nat → Nat → Nat → Opcode
  | greaterOrEqualThan : Nat → Nat → Nat → Opcode
  | typeofOp : Nat → Nat → Opcode
  | other : Nat → Opcode
deriving Repr, DecidableEq

/-- The `meta` subtype tag `OPCODE_META_TYPE_STRICT_CODE`; only its identity
matters to the embedding. -/
def OPCODE_META_TYPE_STRICT_CODE : Nat := 12

/-- Union read `opdata.data.exitval.status_code` (0 on a foreign opcode, a
debug-assert violation). -/
def Opcode.exitvalStatus : Opcode → Nat
  | .exitval s => s
  | _ => 0

/-- Union read `opdata.data.reg_var_decl.min` (0 on a foreign opcode, a
debug-assert violation). -/
def Opcode.regVarDeclMin : Opcode → Nat
  | .regVarDecl lo _ => lo
  | _ => 0

/-- Union read `opdata.data.reg_var_decl.max`. -/
def Opcode.regVarDeclMax : Opcode → Nat
  | .regVarDecl _ hi => hi
  | _ => 0

/-- Interpreter context (`int_data_t`), together with the heap the opcode
handlers operate on. -/
structure int_data_t where
  pos : Nat
  this_binding : Value
  lex_env_p : ObjId
  is_strict : Bool
  is_eval_code : Bool
  min_reg_num : Nat
  max_reg_num : Nat
  tmp_num : ecma_number_t
  regs : List Value
  heap : Heap
deriving Repr, DecidableEq

/-- Modelled from the spec: an operand addresses a register slot exactly when
it lies in the frame's `[min_reg, max_reg]` window (`is_reg_variable`, outside
the sources studied here). -/
def is_reg_variable (d : int_data_t) (var_idx : Nat) : Bool :=
  d.min_reg_num ≤ var_idx && var_idx ≤ d.max_reg_num

def get_reg_value (d : int_data_t) (var_idx : Nat) : Value :=
  d.regs.getD (var_idx - d.min_reg_num) .undefined

/-- External machinery the opcode handlers rely on, outside the sources
studied here: the literal table (uid and instruction position to identifier
name), the [[Call]] entry point, the abstract relational comparator, the
identifier-assignment path of `set_variable_value`, and the fuel bound for
environment-chain walks. -/
structure OpcodeSupport where
  lit_name : Nat → Nat → String
  call : CallOracle
  compare : Value → Value → Bool → Heap → Completion × Heap
  set_identifier : String → Value → int_data_t → Completion × int_data_t
  env_fuel : Nat

/-- Modelled from the spec: `get_variable_value` (outside the sources studied
here) reads a register slot directly, and reads an identifier operand through
reference resolution and GetBindingValue; GetValue of an unresolvable
reference throws a ReferenceError. -/
def get_variable_value (sup : OpcodeSupport) (d : int_data_t) (var_idx : Nat) :
    Completion × Heap :=
  if is_reg_variable d var_idx then
    (ecma_make_normal_completion_value (get_reg_value d var_idx), d.heap)
  else
    let var_name := sup.lit_name var_idx d.pos
    match ecma_op_resolve_reference_base d.heap sup.env_fuel sup.env_fuel
            (some d.lex_env_p) var_name with
    | none => (ecma_make_standard_error_throw .referenceError, d.heap)
    | some none => (ecma_make_standard_error_throw .referenceError, d.heap)
    | some (some base_env) =>
      ecma_op_get_value_lex_env_base sup.call d.heap sup.env_fuel base_env
        var_name d.is_strict

/-- Modelled from the spec: `set_variable_value` (outside the sources studied
here) writes a register slot directly (an empty completion) and routes an
identifier target through PutValue (the `set_identifier` oracle). -/
def set_variable_value (sup : OpcodeSupport) (d : int_data_t) (lit_oc : Nat)
    (var_idx : Nat) (v : Value) : Completion × int_data_t :=
  if is_reg_variable d var_idx then
    (ecma_make_empty_completion_value,
     { d with regs := d.regs.set (var_idx - d.min_reg_num) v })
  else sup.set_identifier (sup.lit_name var_idx lit_oc) v d

/-- Shared shape of the four relational opcode handlers: fetch both operand
variables, invoke the abstract relational comparator with the given operand
order and `leftFirst` flag, map the comparison result to a boolean via
`map_result`, and store it; every `ECMA_TRY_CATCH` failure propagates the
throw completion, and `int_data->pos` is incremented on every path (the
increment sits after the `ECMA_FINALIZE`s). -/
def opfunc_relational_template (sup : OpcodeSupport) (d : int_data_t)
    (dst_var_idx left_var_idx right_var_idx : Nat)
    (swap_operands : Bool) (left_first : Bool)
    (map_result : Value → Bool) : Completion × int_data_t :=
  let bump : Completion × int_data_t → Completion × int_data_t := fun r =>
    (r.1, { r.2 with pos := r.2.pos + 1 })
  let leftg := get_variable_value sup d left_var_idx
  if ecma_is_completion_value_throw leftg.1 then
    bump (leftg.1, { d with heap := leftg.2 })
  else
    let d1 := { d with heap := leftg.2 }
    let rightg := get_variable_value sup d1 right_var_idx
    if ecma_is_completion_value_throw rightg.1 then
      bump (rightg.1, { d1 with heap := rightg.2 })
    else
      let d2 := { d1 with heap := rightg.2 }
      let first := if swap_operands then rightg.1.value else leftg.1.value
      let second := if swap_operands then leftg.1.value else rightg.1.value
      let compared := sup.compare first second left_first d2.heap
      if ecma_is_completion_value_throw compared.1 then
        bump (compared.1, { d2 with heap := compared.2 })
      else
        let d3 := { d2 with heap := compared.2 }
        let res := map_result compared.1.value
        bump (set_variable_value sup d3 d3.pos dst_var_idx (.boolean res))

/-- Result mapping of `opfunc_less_than` / `opfunc_greater_than`: undefined
becomes false, a boolean result is stored as is. -/
def relational_keep_result (compare_result : Value) : Bool :=
  if ecma_is_value_undefined compare_result then false
  else ecma_is_value_true compare_result

/-- Result mapping of `opfunc_less_or_equal_than` /
`opfunc_greater_or_equal_than`: undefined and true become false, false becomes
true. -/
def relational_negate_result (compare_result : Value) : Bool :=
  if ecma_is_value_undefined compare_result then false
  else if ecma_is_value_true compare_result then false
  else true

/-- 'Less-than' opcode handler (`opfunc_less_than`):
`AbstractRelationalCompare (left, right, leftFirst = true)`. -/
def opfunc_less_than (sup : OpcodeSupport) (opdata : Opcode) (d : int_data_t) :
    Completion × int_data_t :=
  match opdata with
  | .lessThan dst l r =>
    opfunc_relational_template sup d dst l r false true relational_keep_result
  | _ => (ecma_make_empty_completion_value, d)

/-- 'Greater-than' opcode handler (`opfunc_greater_than`):
`AbstractRelationalCompare (right, left, leftFirst = false)`. -/
def opfunc_greater_than (sup : OpcodeSupport) (opdata : Opcode) (d : int_data_t) :
    Completion × int_data_t :=
  match opdata with
  | .greaterThan dst l r =>
    opfunc_relational_template sup d dst l r true false relational_keep_result
  | _ => (ecma_make_empty_completion_value, d)

/-- 'Less-than-or-equal' opcode handler (`opfunc_less_or_equal_than`):
`AbstractRelationalCompare (right, left, leftFirst = false)` with the negating
result mapping. -/
def opfunc_less_or_equal_than (sup : OpcodeSupport) (opdata : Opcode)
    (d : int_data_t) : Completion × int_data_t :=
  match opdata with
  | .lessOrEqualThan dst l r =>
    opfunc_relational_template sup d dst l r true false relational_negate_result
  | _ => (ecma_make_empty_completion_value, d)

/-- 'Greater-than-or-equal' opcode handler (`opfunc_greater_or_equal_than`):
`AbstractRelationalCompare (left, right, leftFirst = true)` with the negating
result mapping. -/
def opfunc_greater_or_equal_than (sup : OpcodeSupport) (opdata : Opcode)
    (d : int_data_t) : Completion × int_data_t :=
  match opdata with
  | .greaterOrEqualThan dst l r =>
    opfunc_relational_template sup d dst l r false true relational_negate_result
  | _ => (ecma_make_empty_completion_value, d)

/-- Evaluate the argument of `typeof` (`evaluate_arg_for_typeof`): a register
operand is read directly; an identifier operand is resolved, an unresolvable
one yielding the simple undefined completion (not a ReferenceError). -/
def evaluate_arg_for_typeof (sup : OpcodeSupport) (d : int_data_t)
    (var_idx : Nat) : Completion × Heap :=
  if is_reg_variable d var_idx then
    -- 2.b
    get_variable_value sup d var_idx
  else
    let var_name := sup.lit_name var_idx d.pos
    match ecma_op_resolve_reference_base d.heap sup.env_fuel sup.env_fuel
            (some d.lex_env_p) var_name with
    | none =>
      -- fuel artifact: the chain walk is assumed to terminate
      (ecma_make_standard_error_throw .referenceError, d.heap)
    | some none => (ecma_make_simple_completion_value .undefined, d.heap)
    | some (some ref_base_lex_env_p) =>
      ecma_op_get_value_lex_env_base sup.call d.heap sup.env_fuel
        ref_base_lex_env_p var_name d.is_strict

/-- 'typeof' opcode handler (`opfunc_typeof`). -/
def opfunc_typeof (sup : OpcodeSupport) (opdata : Opcode) (d : int_data_t) :
    Completion × int_data_t :=
  let dst_var_idx := match opdata with
    | .typeofOp lhs _ => lhs
    | _ => 0
  let obj_var_idx := match opdata with
    | .typeofOp _ obj => obj
    | _ => 0
  let evaluated := evaluate_arg_for_typeof sup d obj_var_idx
  if ecma_is_completion_value_throw evaluated.1 then
    (evaluated.1, { d with heap := evaluated.2, pos := d.pos + 1 })
  else
    let typeof_arg := evaluated.1.value
    let d1 := { d with heap := evaluated.2 }
    let type_str : String :=
      if ecma_is_value_undefined typeof_arg then "undefined"
      else if ecma_is_value_null typeof_arg then "object"
      else if ecma_is_value_boolean typeof_arg then "boolean"
      else if ecma_is_value_number typeof_arg then "number"
      else if ecma_is_value_string typeof_arg then "string"
      else if ecma_op_is_callable d1.heap typeof_arg then "function"
      else "object"
    let setr := set_variable_value sup d1 d1.pos dst_var_idx (.string type_str)
    (setr.1, { setr.2 with pos := setr.2.pos + 1 })

/-- 'exitval' opcode handler (`opfunc_exitval`): an exit completion carrying
true exactly when the status code is 0. -/
def opfunc_exitval (opdata : Opcode) (d : int_data_t) : Completion × int_data_t :=
  (ecma_make_exit_completion_value (opdata.exitvalStatus == 0), d)

/-- The dispatch table `__opfuncs` abstracted: an opcode handler for every
instruction. -/
def OpFuncTable := Opcode → int_data_t → Completion × int_data_t

/-- `read_opcode`: fetch the instruction at the given counter (out-of-range
access is undefined in C; the fallback is an `other` instruction). -/
def read_opcode (program : List Opcode) (counter : Nat) : Opcode :=
  program.getD counter (.other 0)

/-- The interpreter inner loop (`run_int_loop`): repeatedly dispatch the
instruction at the current position; continue while the completion is normal;
convert a meta completion to the empty completion before returning.  The fuel
bounds the number of dispatches; `none` means it ran out. -/
def run_int_loop (program : List Opcode) (opfuncs : OpFuncTable) :
    Nat → int_data_t → Option (Completion × int_data_t)
  | 0, _ => none
  | Nat.succ f, d =>
    let curr := read_opcode program d.pos
    let stepped := opfuncs curr d
    if ecma_is_completion_value_normal stepped.1 then
      run_int_loop program opfuncs f stepped.2
    else if ecma_is_completion_value_meta stepped.1 then
      some (ecma_make_empty_completion_value, stepped.2)
    else some stepped

/-- Frame entry (`run_int_from_pos`): read the `reg_var_decl` window, build
the context with the register array (initialised to undefined, per the spec's
frame-setup step) and run the inner loop. -/
def run_int_from_pos (program : List Opcode) (opfuncs : OpFuncTable)
    (fuel : Nat) (start_pos : Nat) (this_binding_value : Value)
    (lex_env_p : ObjId) (is_strict is_eval_code : Bool) (heap : Heap) :
    Option (Completion × int_data_t) :=
  let curr := read_opcode program start_pos
  let min_reg_num := curr.regVarDeclMin
  let max_reg_num := curr.regVarDeclMax
  let regs_num := max_reg_num - min_reg_num + 1
  let d : int_data_t :=
    { pos := start_pos + 1
      this_binding := this_binding_value
      lex_env_p := lex_env_p
      is_strict := is_strict
      is_eval_code := is_eval_code
      min_reg_num := min_reg_num
      max_reg_num := max_reg_num
      tmp_num := ⟨false, true, false, 0⟩
      regs := List.replicate regs_num .undefined
      heap := heap }
  run_int_loop program opfuncs fuel d

/-- Host-level fatal termination codes reachable from `run_int`:
`jerry_exit (ERR_UNHANDLED_EXCEPTION)` for an escaping throw, and the
`JERRY_UNREACHABLE` abort for any other non-exit completion. -/
inductive jerry_fatal_code where
  | ERR_UNHANDLED_EXCEPTION : jerry_fatal_code
  | ERR_UNREACHABLE : jerry_fatal_code
deriving Repr, DecidableEq

/-- Observable outcome of `run_int`: a boolean return, or a fatal host exit
(which in C never returns from the function). -/
inductive RunIntResult where
  | completed : Bool → RunIntResult
  | fatal : jerry_fatal_code → RunIntResult
deriving Repr, DecidableEq

/-- The strict-code prologue of `run_int`: when the first instruction is
`meta strict_code`, execution is strict and starts one instruction later. -/
def run_int_strict_prologue (program : List Opcode) : Bool × Nat :=
  match read_opcode program 0 with
  | .metaOp t => if t == OPCODE_META_TYPE_STRICT_CODE then (true, 1) else (false, 0)
  | _ => (false, 0)

/-- The interpreter driver (`run_int`): run the installed program from the
prologue position in the global environment; an exit completion returns
whether its value is true, a throw completion is a fatal unhandled-exception
exit, anything else reaches `JERRY_UNREACHABLE`.  The global object and
environment are built by externals and enter as parameters. -/
def run_int (program : List Opcode) (opfuncs : OpFuncTable) (fuel : Nat)
    (glob_obj_p : ObjId) (lex_env_p : ObjId) (heap : Heap) :
    Option RunIntResult :=
  let prologue := run_int_strict_prologue program
  match run_int_from_pos program opfuncs fuel prologue.2 (.object glob_obj_p)
          lex_env_p prologue.1 false heap with
  | none => none
  | some run_completion =>
    if ecma_is_completion_value_exit run_completion.1 then
      some (.completed (ecma_is_value_true run_completion.1.value))
    else if ecma_is_completion_value_throw run_completion.1 then
      some (.fatal .ERR_UNHANDLED_EXCEPTION)
    else some (.fatal .ERR_UNREACHABLE)

theorem Heap.length_updateObj (h : Heap) (o : ObjId) (f : EcmaObject → EcmaObject) :
    (h.updateObj o f).length = h.length :=
  List.length_set h o (f (h.obj o))

theorem Heap.obj_set_self (h : Heap) (o : ObjId) (x : EcmaObject)
    (ho : o < h.length) : (h.setObj o x).obj o = x := by
  unfold Heap.setObj Heap.obj
  rw [List.get?_eq_getElem?, List.getElem?_set_self ho]
  rfl

theorem Heap.obj_updateObj_self (h : Heap) (o : ObjId) (f : EcmaObject → EcmaObject)
    (ho : o < h.length) : (h.updateObj o f).obj o = f (h.obj o) := by
  unfold Heap.updateObj Heap.obj
  rw [List.get?_eq_getElem?, List.getElem?_set_self ho]
  rfl

theorem Heap.obj_updateObj_ne (h : Heap) (o i : ObjId) (f : EcmaObject → EcmaObject)
    (hne : o ≠ i) : (h.updateObj o f).obj i = h.obj i := by
  unfold Heap.updateObj Heap.obj
  rw [List.get?_eq_getElem?, List.getElem?_set_ne hne, List.get?_eq_getElem?]

theorem Heap.obj_concat_fresh (h : Heap) (x : EcmaObject) :
    (h ++ [x]).obj h.length = x := by
  unfold Heap.obj
  rw [List.get?_eq_getElem?, List.getElem?_concat_length]
  rfl

theorem Heap.updateObj_updateObj (h : Heap) (o : ObjId)
    (f g : EcmaObject → EcmaObject) (ho : o < h.length) :
    (h.updateObj o f).updateObj o g = h.updateObj o (fun x => g (f x)) := by
  have h1 : (h.updateObj o f).obj o = f (h.obj o) := Heap.obj_updateObj_self h o f ho
  show (h.updateObj o f).set o (g ((h.updateObj o f).obj o)) = h.set o (g (f (h.obj o)))
  rw [h1]
  show (h.set o (f (h.obj o))).set o _ = _
  rw [List.set_set]

theorem props_map_of_find?_none (l : List Property) (name : String)
    (f : Property → Property)
    (habs : l.find? (fun p => p.name == name) = none) :
    l.map (fun p => if p.name == name then f p else p) = l := by
  induction l with
  | nil => rfl
  | cons head tail ih =>
    rw [List.find?_cons] at habs
    by_cases hh : head.name == name
    · simp [hh] at habs
    · simp only [hh, cond_false] at habs
      rw [List.map_cons, if_neg hh, ih habs]

/-- [[DefineOwnProperty]] with a data (or generic) descriptor on an extensible
object that lacks the property creates a named-data node carrying the
descriptor's value and attributes, and answers the normal true completion. -/
theorem define_own_property_fresh_data (h : Heap) (o : ObjId) (name : String)
    (desc : ecma_property_descriptor_t) (is_throw : Bool)
    (ho : o < h.length)
    (habs : ecma_find_named_property h o name = none)
    (hext : (h.obj o).extensible = true)
    (hdata : desc.is_value_defined || desc.is_writable_defined ||
             (!desc.is_get_defined && !desc.is_set_defined) = true) :
    ecma_op_general_object_define_own_property h o name desc is_throw =
      (ecma_make_simple_completion_value (.boolean true),
       h.updateObj o (fun obj =>
         { obj with properties :=
             (⟨name, .namedData desc.value desc.is_writable,
               desc.is_enumerable, desc.is_configurable⟩ : Property)
             :: obj.properties })) := by
  have hbranch : (!desc.is_value_defined && !desc.is_writable_defined &&
      !desc.is_get_defined && !desc.is_set_defined ||
      (desc.is_value_defined || desc.is_writable_defined)) = true := by
    cases hv : desc.is_value_defined <;> cases hw : desc.is_writable_defined <;>
      simp_all
  unfold ecma_op_general_object_define_own_property
  rw [show ecma_op_general_object_get_own_property h o name = none from habs]
  simp only [hext, Bool.not_true, hbranch, Bool.false_eq_true, if_false, if_true,
    ecma_create_named_data_property, ecma_named_data_property_assign_value,
    Heap.updateNamedProperty]
  rw [Heap.updateObj_updateObj h o _ _ ho]
  have hprops : ∀ obj : EcmaObject, obj = h.obj o →
      ((⟨name, .namedData .undefined desc.is_writable,
         desc.is_enumerable, desc.is_configurable⟩ : Property)
       :: obj.properties).map
        (fun p => if p.name == name then
          match p.kind with
          | .namedData _ w => { p with kind := .namedData desc.value w }
          | .namedAccessor _ _ => p
         else p) =
      (⟨name, .namedData desc.value desc.is_writable,
        desc.is_enumerable, desc.is_configurable⟩ : Property) :: obj.properties := by
    intro obj hobj
    rw [List.map_cons]
    have habs2 : obj.properties.find? (fun p => p.name == name) = none := by
      rw [hobj]; exact habs
    rw [props_map_of_find?_none _ _ _ habs2]
    simp
  simp only [Heap.updateObj]
  congr 1
  have := hprops (h.obj o) rfl
  simp only [this]

/-- C1: in `ecma_op_from_property_descriptor` the choice between the data
branch (defining 'value' and 'writable') and the accessor branch (defining
'get' and 'set') tests the `*_defined` flags of the locally initialised
descriptor, whose value/writable flags are unconditionally true — so for every
source descriptor, accessor-only descriptors included, the data branch is
taken: the result object always carries data properties named 'value' and
'writable' (with the source's value and writable flag) and never carries a
property named 'get' or 'set'. -/
theorem from_property_descriptor_takes_data_branch (h : Heap)
    (object_prototype_p : Option ObjId) (src : ecma_property_descriptor_t) :
    ecma_find_named_property (ecma_op_from_property_descriptor h object_prototype_p src).2
        (ecma_op_from_property_descriptor h object_prototype_p src).1 "get" = none ∧
    ecma_find_named_property (ecma_op_from_property_descriptor h object_prototype_p src).2
        (ecma_op_from_property_descriptor h object_prototype_p src).1 "set" = none ∧
    ecma_find_named_property (ecma_op_from_property_descriptor h object_prototype_p src).2
        (ecma_op_from_property_descriptor h object_prototype_p src).1 "value" =
      some ⟨"value", .namedData src.value true, true, true⟩ ∧
    ecma_find_named_property (ecma_op_from_property_descriptor h object_prototype_p src).2
        (ecma_op_from_property_descriptor h object_prototype_p src).1 "writable" =
      some ⟨"writable", .namedData (.boolean src.is_writable) true, true, true⟩ := by
  have hX : (ecma_op_create_object_object_noarg h object_prototype_p).2 =
      h ++ [⟨object_prototype_p, true, .generalObject, false, "Object", []⟩] := rfl
  set X : EcmaObject := ⟨object_prototype_p, true, .generalObject, false, "Object", []⟩ with hXdef
  set h0 : Heap := h ++ [X] with hh0
  set o : ObjId := h.length with hodef
  have hlen0 : o < h0.length := by
    rw [hh0, hodef]
    simp
  have hobj0 : h0.obj o = X := Heap.obj_concat_fresh h X
  -- step "value"
  have hfind0 : ecma_find_named_property h0 o "value" = none := by
    unfold ecma_find_named_property
    rw [hobj0]
    rfl
  have hd1 := define_own_property_fresh_data h0 o "value"
    ⟨true, src.value, true, true, true, true, true, true, false, none, false, none⟩
    false hlen0 hfind0 (by rw [hobj0]) rfl
  set pv : Property := ⟨"value", .namedData src.value true, true, true⟩ with hpv
  set h1 : Heap := h0.updateObj o
    (fun obj => { obj with properties := pv :: obj.properties }) with hh1
  have hlen1 : o < h1.length := by rw [hh1, Heap.length_updateObj]; exact hlen0
  have hobj1 : h1.obj o = { X with properties := [pv] } := by
    rw [hh1, Heap.obj_updateObj_self h0 o _ hlen0, hobj0]
  -- step "writable"
  have hfind1 : ecma_find_named_property h1 o "writable" = none := by
    unfold ecma_find_named_property
    rw [hobj1]
    rfl
  have hd2 := define_own_property_fresh_data h1 o "writable"
    ⟨true, .boolean src.is_writable, true, true, true, true, true, true, false, none, false, none⟩
    false hlen1 hfind1 (by rw [hobj1]) rfl
  set pw : Property := ⟨"writable", .namedData (.boolean src.is_writable) true, true, true⟩ with hpw
  set h2 : Heap := h1.updateObj o
    (fun obj => { obj with properties := pw :: obj.properties }) with hh2
  have hlen2 : o < h2.length := by rw [hh2, Heap.length_updateObj]; exact hlen1
  have hobj2 : h2.obj o = { X with properties := [pw, pv] } := by
    rw [hh2, Heap.obj_updateObj_self h1 o _ hlen1, hobj1]
  -- step "enumerable"
  have hfind2 : ecma_find_named_property h2 o "enumerable" = none := by
    unfold ecma_find_named_property
    rw [hobj2]
    rfl
  have hd3 := define_own_property_fresh_data h2 o "enumerable"
    ⟨true, .boolean src.is_enumerable, true, true, true, true, true, true, false, none, false, none⟩
    false hlen2 hfind2 (by rw [hobj2]) rfl
  set pe : Property := ⟨"enumerable", .namedData (.boolean src.is_enumerable) true, true, true⟩ with hpe
  set h3 : Heap := h2.updateObj o
    (fun obj => { obj with properties := pe :: obj.properties }) with hh3
  have hlen3 : o < h3.length := by rw [hh3, Heap.length_updateObj]; exact hlen2
  have hobj3 : h3.obj o = { X with properties := [pe, pw, pv] } := by
    rw [hh3, Heap.obj_updateObj_self h2 o _ hlen2, hobj2]
  -- step "configurable"
  have hfind3 : ecma_find_named_property h3 o "configurable" = none := by
    unfold ecma_find_named_property
    rw [hobj3]
    rfl
  have hd4 := define_own_property_fresh_data h3 o "configurable"
    ⟨true, .boolean src.is_configurable, true, true, true, true, true, true, false, none, false, none⟩
    false hlen3 hfind3 (by rw [hobj3]) rfl
  set pc : Property := ⟨"configurable", .namedData (.boolean src.is_configurable) true, true, true⟩ with hpc
  set h4 : Heap := h3.updateObj o
    (fun obj => { obj with properties := pc :: obj.properties }) with hh4
  have hlen4 : o < h4.length := by rw [hh4, Heap.length_updateObj]; exact hlen3
  have hobj4 : h4.obj o = { X with properties := [pc, pe, pw, pv] } := by
    rw [hh4, Heap.obj_updateObj_self h3 o _ hlen3, hobj3]
  -- assemble the whole computation
  have hmain : ecma_op_from_property_descriptor h object_prototype_p src = (o, h4) := by
    unfold ecma_op_from_property_descriptor
    simp only [ecma_op_create_object_object_noarg, ecma_make_empty_property_descriptor,
      Bool.or_self, eq_self_iff_true, if_true]
    simp only [hd1, hd2, hd3, hd4]
  rw [hmain]
  refine ⟨?_, ?_, ?_, ?_⟩ <;>
    · unfold ecma_find_named_property
      rw [hobj4]
      rfl

/-- Evaluation of the shared relational-handler template on register operands
and a normal comparison result. -/
theorem relational_template_eval (sup : OpcodeSupport) (d : int_data_t)
    (dst l r : Nat) (swap_operands left_first : Bool) (map_result : Value → Bool)
    (c : Value) (hh : Heap)
    (hrl : is_reg_variable d l = true) (hrr : is_reg_variable d r = true)
    (hrd : is_reg_variable d dst = true)
    (hcmp : sup.compare (if swap_operands then get_reg_value d r else get_reg_value d l)
        (if swap_operands then get_reg_value d l else get_reg_value d r)
        left_first d.heap = (⟨.normal, c⟩, hh)) :
    opfunc_relational_template sup d dst l r swap_operands left_first map_result =
      (ecma_make_empty_completion_value,
       { d with
           heap := hh
           pos := d.pos + 1
           regs := d.regs.set (dst - d.min_reg_num) (.boolean (map_result c)) }) := by
  obtain ⟨pos, thb, lex, strict, ev, mn, mx, tmp, regs, heap⟩ := d
  simp only [is_reg_variable] at hrl hrr hrd
  simp only [get_reg_value] at hcmp
  simp only [opfunc_relational_template, get_variable_value, is_reg_variable,
    hrl, hrr, if_true, ecma_make_normal_completion_value,
    ecma_is_completion_value_throw, get_reg_value]
  simp only [hcmp]
  simp [set_variable_value, is_reg_variable, hrd, ecma_make_empty_completion_value]

/-- C4: the four relational opcode handlers invoke the abstract relational
comparator with the operand order and `leftFirst` flag the spec states —
`opfunc_less_than` with (left, right, leftFirst = true),
`opfunc_greater_than` and `opfunc_less_or_equal_than` with
(right, left, leftFirst = false), `opfunc_greater_or_equal_than` with
(left, right, leftFirst = true) — and store for `<` and `>` false when the
result is undefined and the boolean result otherwise, and for `<=` and `>=`
false when the result is undefined or true and true when it is false. -/
theorem relational_opfuncs_contract :
    (∀ (sup : OpcodeSupport) (d : int_data_t) (dst l r : Nat) (c : Value) (hh : Heap),
      is_reg_variable d l = true → is_reg_variable d r = true →
      is_reg_variable d dst = true →
      sup.compare (get_reg_value d l) (get_reg_value d r) true d.heap = (⟨.normal, c⟩, hh) →
      (c = .undefined ∨ c = .boolean true ∨ c = .boolean false) →
      opfunc_less_than sup (.lessThan dst l r) d =
        (ecma_make_empty_completion_value,
         { d with
             heap := hh
             pos := d.pos + 1
             regs := d.regs.set (dst - d.min_reg_num)
               (if c = .undefined then .boolean false else c) })) ∧
    (∀ (sup : OpcodeSupport) (d : int_data_t) (dst l r : Nat) (c : Value) (hh : Heap),
      is_reg_variable d l = true → is_reg_variable d r = true →
      is_reg_variable d dst = true →
      sup.compare (get_reg_value d r) (get_reg_value d l) false d.heap = (⟨.normal, c⟩, hh) →
      (c = .undefined ∨ c = .boolean true ∨ c = .boolean false) →
      opfunc_greater_than sup (.greaterThan dst l r) d =
        (ecma_make_empty_completion_value,
         { d with
             heap := hh
             pos := d.pos + 1
             regs := d.regs.set (dst - d.min_reg_num)
               (if c = .undefined then .boolean false else c) })) ∧
    (∀ (sup : OpcodeSupport) (d : int_data_t) (dst l r : Nat) (c : Value) (hh : Heap),
      is_reg_variable d l = true → is_reg_variable d r = true →
      is_reg_variable d dst = true →
      sup.compare (get_reg_value d r) (get_reg_value d l) false d.heap = (⟨.normal, c⟩, hh) →
      (c = .undefined ∨ c = .boolean true ∨ c = .boolean false) →
      opfunc_less_or_equal_than sup (.lessOrEqualThan dst l r) d =
        (ecma_make_empty_completion_value,
         { d with
             heap := hh
             pos := d.pos + 1
             regs := d.regs.set (dst - d.min_reg_num)
               (if c = .undefined then .boolean false
                else if c = .boolean true then .boolean false
                else .boolean true) })) ∧
    (∀ (sup : OpcodeSupport) (d : int_data_t) (dst l r : Nat) (c : Value) (hh : Heap),
      is_reg_variable d l = true → is_reg_variable d r = true →
      is_reg_variable d dst = true →
      sup.compare (get_reg_value d l) (get_reg_value d r) true d.heap = (⟨.normal, c⟩, hh) →
      (c = .undefined ∨ c = .boolean true ∨ c = .boolean false) →
      opfunc_greater_or_equal_than sup (.greaterOrEqualThan dst l r) d =
        (ecma_make_empty_completion_value,
         { d with
             heap := hh
             pos := d.pos + 1
             regs := d.regs.set (dst - d.min_reg_num)
               (if c = .undefined then .boolean false
                else if c = .boolean true then .boolean false
                else .boolean true) })) := by
  refine ⟨?_, ?_, ?_, ?_⟩ <;>
    intro sup d dst l r c hh hrl hrr hrd hcmp hcval
  · rw [show opfunc_less_than sup (.lessThan dst l r) d =
        opfunc_relational_template sup d dst l r false true relational_keep_result from rfl,
      relational_template_eval sup d dst l r false true relational_keep_result c hh
        hrl hrr hrd (by simpa using hcmp)]
    rcases hcval with rfl | rfl | rfl <;> rfl
  · rw [show opfunc_greater_than sup (.greaterThan dst l r) d =
        opfunc_relational_template sup d dst l r true false relational_keep_result from rfl,
      relational_template_eval sup d dst l r true false relational_keep_result c hh
        hrl hrr hrd (by simpa using hcmp)]
    rcases hcval with rfl | rfl | rfl <;> rfl
  · rw [show opfunc_less_or_equal_than sup (.lessOrEqualThan dst l r) d =
        opfunc_relational_template sup d dst l r true false relational_negate_result from rfl,
      relational_template_eval sup d dst l r true false relational_negate_result c hh
        hrl hrr hrd (by simpa using hcmp)]
    rcases hcval with rfl | rfl | rfl <;> rfl
  · rw [show opfunc_greater_or_equal_than sup (.greaterOrEqualThan dst l r) d =
        opfunc_relational_template sup d dst l r false true relational_negate_result from rfl,
      relational_template_eval sup d dst l r false true relational_negate_result c hh
        hrl hrr hrd (by simpa using hcmp)]
    rcases hcval with rfl | rfl | rfl <;> rfl

theorem ecma_is_value_true_iff (v : Value) :
    ecma_is_value_true v = true ↔ v = .boolean true := by
  cases v <;> simp [ecma_is_value_true]
  rename_i b
  cases b <;> simp

/-- Witness for `relational_opfuncs_contract`: on register operands with a
comparator answering undefined, the less-than handler stores false. -/
theorem relational_opfuncs_contract_witness :
    opfunc_less_than
        ⟨fun _ _ => "x", fun _ _ _ hp => (ecma_make_empty_completion_value, hp),
         fun _ _ _ hp => (⟨.normal, .undefined⟩, hp),
         fun _ _ dd => (ecma_make_empty_completion_value, dd), 0⟩
        (.lessThan 2 0 1)
        ⟨0, .undefined, 0, false, false, 0, 2, ⟨false, true, false, 0⟩,
         [.undefined, .undefined, .undefined], []⟩ =
      (ecma_make_empty_completion_value,
       ⟨1, .undefined, 0, false, false, 0, 2, ⟨false, true, false, 0⟩,
        [.undefined, .undefined, .boolean false], []⟩) :=
  relational_opfuncs_contract.1
    ⟨fun _ _ => "x", fun _ _ _ hp => (ecma_make_empty_completion_value, hp),
     fun _ _ _ hp => (⟨.normal, .undefined⟩, hp),
     fun _ _ dd => (ecma_make_empty_completion_value, dd), 0⟩
    ⟨0, .undefined, 0, false, false, 0, 2, ⟨false, true, false, 0⟩,
     [.undefined, .undefined, .undefined], []⟩
    2 0 1 .undefined [] rfl rfl rfl rfl (Or.inl rfl)

/-- Reference loop stated from the spec's words: dispatch instructions,
continuing exactly while the completion is normal, and return the first
non-normal completion untouched. -/
def run_int_loop_first_exit (program : List Opcode) (opfuncs : OpFuncTable) :
    Nat → int_data_t → Option (Completion × int_data_t)
  | 0, _ => none
  | Nat.succ f, d =>
    let stepped := opfuncs (read_opcode program d.pos) d
    if ecma_is_completion_value_normal stepped.1 then
      run_int_loop_first_exit program opfuncs f stepped.2
    else some stepped

/-- C7: under the handler invariant that every normal completion written by an
opcode handler is normal-empty, the inner loop continues exactly while the
completion is normal (it returns the first non-normal completion, converting a
meta completion to normal-empty), the completion `run_int_loop` returns is
never meta and is empty whenever it is normal, and the completion
`run_int_from_pos` hands to its caller is always normal, throw, return or
exit. -/
theorem run_int_loop_completion_invariant (program : List Opcode)
    (opfuncs : OpFuncTable)
    (hstep : ∀ (op : Opcode) (d : int_data_t),
      ecma_is_completion_value_normal (opfuncs op d).1 = true →
      ecma_is_completion_value_empty (opfuncs op d).1 = true) :
    (∀ (fuel : Nat) (d : int_data_t),
      run_int_loop program opfuncs fuel d =
        (run_int_loop_first_exit program opfuncs fuel d).map
          (fun r => if ecma_is_completion_value_meta r.1 then
            (ecma_make_empty_completion_value, r.2) else r)) ∧
    (∀ (fuel : Nat) (d : int_data_t) (c : Completion) (d' : int_data_t),
      run_int_loop program opfuncs fuel d = some (c, d') →
      ecma_is_completion_value_meta c = false ∧
      (ecma_is_completion_value_normal c = true →
        c = ecma_make_empty_completion_value)) ∧
    (∀ (fuel start : Nat) (this_b : Value) (lex : ObjId) (strict ev : Bool)
      (heap : Heap) (c : Completion) (d' : int_data_t),
      run_int_from_pos program opfuncs fuel start this_b lex strict ev heap =
        some (c, d') →
      (c.type = .normal ∨ c.type = .throw ∨ c.type = .ret ∨ c.type = .exit)) := by
  have hloop : ∀ (fuel : Nat) (d : int_data_t) (c : Completion) (d' : int_data_t),
      run_int_loop program opfuncs fuel d = some (c, d') →
      ecma_is_completion_value_meta c = false ∧
      (ecma_is_completion_value_normal c = true →
        c = ecma_make_empty_completion_value) := by
    intro fuel
    induction fuel with
    | zero => intro d c d' hc; exact absurd hc (by simp [run_int_loop])
    | succ f ih =>
      intro d c d' hc
      unfold run_int_loop at hc
      by_cases hn : ecma_is_completion_value_normal
          (opfuncs (read_opcode program d.pos) d).1 = true
      · rw [if_pos hn] at hc
        exact ih _ _ _ hc
      · rw [if_neg hn] at hc
        by_cases hm : ecma_is_completion_value_meta
            (opfuncs (read_opcode program d.pos) d).1 = true
        · rw [if_pos hm] at hc
          obtain ⟨h1, h2⟩ := Prod.mk.injEq .. ▸ Option.some.injEq .. ▸ hc
          constructor
          · rw [← h1]; rfl
          · intro _; rw [← h1]
        · rw [if_neg hm] at hc
          obtain ⟨h1, h2⟩ := Prod.mk.injEq .. ▸ Option.some.injEq .. ▸ hc
          constructor
          · rw [← h1]; simpa using hm
          · intro hnorm; rw [← h1] at hnorm; exact absurd hnorm hn
  refine ⟨?_, hloop, ?_⟩
  · intro fuel
    induction fuel with
    | zero => intro d; rfl
    | succ f ih =>
      intro d
      unfold run_int_loop run_int_loop_first_exit
      by_cases hn : ecma_is_completion_value_normal
          (opfuncs (read_opcode program d.pos) d).1 = true
      · rw [if_pos hn, if_pos hn]
        exact ih _
      · rw [if_neg hn, if_neg hn]
        by_cases hm : ecma_is_completion_value_meta
            (opfuncs (read_opcode program d.pos) d).1 = true
        · rw [if_pos hm]
          simp [hm]
        · rw [if_neg hm]
          simp [hm]
  · intro fuel start this_b lex strict ev heap c d' hc
    unfold run_int_from_pos at hc
    obtain ⟨hmeta, hnorm⟩ := hloop _ _ _ _ hc
    cases htype : c.type with
    | normal => exact Or.inl rfl
    | throw => exact Or.inr (Or.inl rfl)
    | ret => exact Or.inr (Or.inr (Or.inl rfl))
    | exit => exact Or.inr (Or.inr (Or.inr rfl))
    | meta =>
      exfalso
      unfold ecma_is_completion_value_meta at hmeta
      rw [htype] at hmeta
      simp at hmeta

/-- Witness for `run_int_loop_completion_invariant`: an always-exiting handler
table satisfies the handler invariant, and the frame completion at a concrete
input is of one of the four propagating kinds. -/
theorem run_int_loop_completion_invariant_witness :
    run_int_from_pos [] (fun _ d => (ecma_make_exit_completion_value true, d)) 2 0
        .undefined 0 false false [] =
      some (⟨.exit, .boolean true⟩,
        ⟨1, .undefined, 0, false, false, 0, 0, ⟨false, true, false, 0⟩,
         [.undefined], []⟩) ∧
    ((⟨.exit, .boolean true⟩ : Completion).type = .normal ∨
     (⟨.exit, .boolean true⟩ : Completion).type = .throw ∨
     (⟨.exit, .boolean true⟩ : Completion).type = .ret ∨
     (⟨.exit, .boolean true⟩ : Completion).type = .exit) :=
  ⟨rfl,
   (run_int_loop_completion_invariant []
      (fun _ d => (ecma_make_exit_completion_value true, d))
      (fun _ _ h => by simp [ecma_make_exit_completion_value,
        ecma_is_completion_value_normal] at h)).2.2
     2 0 .undefined 0 false false [] _ _ rfl⟩

/-- C6: `run_int` returns true exactly when the interpretation of the
installed program ends in an exit completion carrying the value true; an exit
completion carrying false returns false; a throw completion escaping the
outermost frame never yields a boolean return but the fatal
`jerry_exit (ERR_UNHANDLED_EXCEPTION)`; and `opfunc_exitval` produces the exit
completion carrying true exactly for status code 0 (status code 1 yielding
the exit completion carrying false). -/
theorem run_int_exit_contract (program : List Opcode) (opfuncs : OpFuncTable)
    (fuel : Nat) (glob_obj_p lex_env_p : ObjId) (heap : Heap)
    (c : Completion) (d' : int_data_t)
    (hrun : run_int_from_pos program opfuncs fuel
        (run_int_strict_prologue program).2 (.object glob_obj_p) lex_env_p
        (run_int_strict_prologue program).1 false heap = some (c, d')) :
    (run_int program opfuncs fuel glob_obj_p lex_env_p heap =
        some (.completed true) ↔ (c.type = .exit ∧ c.value = .boolean true)) ∧
    (c.type = .exit ∧ c.value = .boolean false →
      run_int program opfuncs fuel glob_obj_p lex_env_p heap =
        some (.completed false)) ∧
    (c.type = .throw →
      run_int program opfuncs fuel glob_obj_p lex_env_p heap =
        some (.fatal .ERR_UNHANDLED_EXCEPTION)) ∧
    (∀ (d : int_data_t) (status : Nat),
      opfunc_exitval (.exitval status) d =
        (ecma_make_exit_completion_value (status == 0), d) ∧
      (ecma_make_exit_completion_value (status == 0) =
        (⟨.exit, .boolean true⟩ : Completion) ↔ status = 0)) := by
  have hrunint : run_int program opfuncs fuel glob_obj_p lex_env_p heap =
      (if ecma_is_completion_value_exit c then
        some (.completed (ecma_is_value_true c.value))
      else if ecma_is_completion_value_throw c then
        some (.fatal .ERR_UNHANDLED_EXCEPTION)
      else some (.fatal .ERR_UNREACHABLE)) := by
    simp only [run_int]
    rw [hrun]
  refine ⟨?_, ?_, ?_, ?_⟩
  · rw [hrunint]
    obtain ⟨ctype, cvalue⟩ := c
    cases ctype <;>
      simp [ecma_is_completion_value_exit, ecma_is_completion_value_throw,
        ecma_is_value_true_iff]
  · rw [hrunint]
    rintro ⟨h1, h2⟩
    obtain ⟨ctype, cvalue⟩ := c
    simp only at h1 h2
    subst h1; subst h2
    rfl
  · rw [hrunint]
    intro h1
    obtain ⟨ctype, cvalue⟩ := c
    simp only at h1
    subst h1
    rfl
  · intro d status
    refine ⟨rfl, ?_⟩
    unfold ecma_make_exit_completion_value
    simp [Completion.mk.injEq]

/-- Witness for `run_int_exit_contract`: a program whose first dispatched
instruction is exit-success makes `run_int` return true. -/
theorem run_int_exit_contract_witness :
    (run_int [] (fun op d => opfunc_exitval op d) 1 5 7 [] =
        some (.completed true) ↔
      ((⟨.exit, .boolean true⟩ : Completion).type = .exit ∧
       (⟨.exit, .boolean true⟩ : Completion).value = .boolean true)) :=
  (run_int_exit_contract [] (fun op d => opfunc_exitval op d) 1 5 7 []
    ⟨.exit, .boolean true⟩
    ⟨1, .object 5, 7, false, false, 0, 0, ⟨false, true, false, 0⟩,
     [.undefined], []⟩ rfl).1

/-- C10: when the operand of a `typeof` opcode is a non-register identifier
that resolves to no binding anywhere in the lexical-environment chain,
`opfunc_typeof` yields the normal-empty completion and stores the string
"undefined" in the destination register — it never produces a ReferenceError
throw completion for an unresolvable identifier. -/
theorem opfunc_typeof_unresolvable (sup : OpcodeSupport) (d : int_data_t)
    (dst_var_idx obj_var_idx : Nat)
    (hnonreg : is_reg_variable d obj_var_idx = false)
    (hunres : ecma_op_resolve_reference_base d.heap sup.env_fuel sup.env_fuel
        (some d.lex_env_p) (sup.lit_name obj_var_idx d.pos) = some none)
    (hdst : is_reg_variable d dst_var_idx = true) :
    opfunc_typeof sup (.typeofOp dst_var_idx obj_var_idx) d =
      (ecma_make_empty_completion_value,
       { d with
           pos := d.pos + 1
           regs := d.regs.set (dst_var_idx - d.min_reg_num)
             (.string "undefined") }) := by
  obtain ⟨pos, thb, lex, strict, ev, mn, mx, tmp, regs, heap⟩ := d
  simp only [is_reg_variable] at hnonreg hdst
  simp only [] at hunres
  simp only [opfunc_typeof, evaluate_arg_for_typeof, is_reg_variable, hnonreg,
    Bool.false_eq_true, if_false]
  rw [hunres]
  simp [set_variable_value, is_reg_variable, hdst, ecma_is_completion_value_throw,
    ecma_make_simple_completion_value, ecma_make_empty_completion_value,
    ecma_is_value_undefined]

/-- Witness for `opfunc_typeof_unresolvable`: a `typeof` of the unresolvable
identifier operand 5 in a one-environment chain stores "undefined". -/
theorem opfunc_typeof_unresolvable_witness :
    is_reg_variable
        ⟨0, .undefined, 0, false, false, 0, 1, ⟨false, true, false, 0⟩,
         [.undefined, .undefined],
         [⟨none, true, .lexEnvDeclarative none, false, "Object", []⟩]⟩ 5 = false ∧
    opfunc_typeof
        ⟨fun _ _ => "x", fun _ _ _ hp => (ecma_make_empty_completion_value, hp),
         fun _ _ _ hp => (⟨.normal, .undefined⟩, hp),
         fun _ _ dd => (ecma_make_empty_completion_value, dd), 1⟩
        (.typeofOp 0 5)
        ⟨0, .undefined, 0, false, false, 0, 1, ⟨false, true, false, 0⟩,
         [.undefined, .undefined],
         [⟨none, true, .lexEnvDeclarative none, false, "Object", []⟩]⟩ =
      (ecma_make_empty_completion_value,
       ⟨1, .undefined, 0, false, false, 0, 1, ⟨false, true, false, 0⟩,
        [.string "undefined", .undefined],
        [⟨none, true, .lexEnvDeclarative none, false, "Object", []⟩]⟩) :=
  ⟨rfl,
   opfunc_typeof_unresolvable
     ⟨fun _ _ => "x", fun _ _ _ hp => (ecma_make_empty_completion_value, hp),
      fun _ _ _ hp => (⟨.normal, .undefined⟩, hp),
      fun _ _ dd => (ecma_make_empty_completion_value, dd), 1⟩
     ⟨0, .undefined, 0, false, false, 0, 1, ⟨false, true, false, 0⟩,
      [.undefined, .undefined],
      [⟨none, true, .lexEnvDeclarative none, false, "Object", []⟩]⟩
     0 5 rfl rfl rfl⟩

/-- C9: in `ecma_op_general_object_put`, once [[CanPut]] has answered true
and the object has no own named-data property for the name, a named-accessor
property found by [[GetProperty]] always carries a non-null setter — the
`JERRY_ASSERT` on the setter before the setter call can never be violated. -/
theorem put_setter_assert_unreachable (h : Heap) (fuel : Nat) (o : ObjId)
    (name : String) (p : Property)
    (hcan : ecma_op_general_object_can_put h fuel o name = true)
    (hnotdata : ∀ q, ecma_op_general_object_get_own_property h o name = some q →
      q.isNamedData = false)
    (hfound : ecma_op_general_object_get_property h (fuel + 1) o name = some p)
    (hacc : p.isNamedAccessor = true) :
    p.setObj ≠ none := by
  unfold ecma_op_general_object_can_put at hcan
  unfold ecma_op_general_object_get_property at hfound
  cases hown : ecma_op_general_object_get_own_property h o name with
  | some q =>
    rw [hown] at hcan hfound
    simp only [] at hcan hfound
    have hpq : q = p := by simpa using hfound
    subst hpq
    have hqd : q.isNamedData = false := hnotdata q hown
    cases hk : q.kind with
    | namedData v w => simp [Property.isNamedData, hk] at hqd
    | namedAccessor g s =>
      rw [hk] at hcan
      cases s with
      | none => simp at hcan
      | some s0 => simp [Property.setObj, hk]
  | none =>
    rw [hown] at hcan hfound
    cases hproto : (h.obj o).prototype with
    | none => rw [hproto] at hfound; cases hfound
    | some proto =>
      rw [hproto] at hcan hfound
      simp only [] at hcan
      rw [Nat.add_one] at hfound
      simp only [] at hfound
      rw [hfound] at hcan
      simp only [] at hcan
      cases hk : p.kind with
      | namedData v w => simp [Property.isNamedAccessor, hk] at hacc
      | namedAccessor g s =>
        rw [hk] at hcan
        cases s with
        | none => simp at hcan
        | some s0 => simp [Property.setObj, hk]

/-- Witness for `put_setter_assert_unreachable`: an own named-accessor
property with a setter satisfies [[CanPut]], and its setter reference is
non-null. -/
theorem put_setter_assert_unreachable_witness :
    ecma_op_general_object_can_put
        [⟨none, true, .generalObject, false, "Object",
          [⟨"p", .namedAccessor none (some 1), true, true⟩]⟩,
         ⟨none, true, .generalObject, true, "Function", []⟩] 0 0 "p" = true ∧
    (⟨"p", .namedAccessor none (some 1), true, true⟩ : Property).setObj ≠ none :=
  ⟨rfl,
   put_setter_assert_unreachable
     [⟨none, true, .generalObject, false, "Object",
       [⟨"p", .namedAccessor none (some 1), true, true⟩]⟩,
      ⟨none, true, .generalObject, true, "Function", []⟩] 0 0 "p"
     ⟨"p", .namedAccessor none (some 1), true, true⟩ rfl
     (by
       intro q hq
       simp [ecma_op_general_object_get_own_property, ecma_find_named_property,
         Heap.obj] at hq
       subst hq
       rfl)
     rfl rfl⟩

theorem updateNamedProperty_head (g : Heap) (o : ObjId) (name : String)
    (f : Property → Property) (P : Property) (rest : List Property)
    (ho : o < g.length) (hp : (g.obj o).properties = P :: rest)
    (hn : (P.name == name) = true) :
    ∃ rest2, ((g.updateNamedProperty o name f).obj o).properties = f P :: rest2 ∧
      (g.updateNamedProperty o name f).length = g.length := by
  refine ⟨rest.map (fun p => if p.name == name then f p else p), ?_, ?_⟩
  · unfold Heap.updateNamedProperty
    rw [Heap.obj_updateObj_self g o _ ho]
    simp only [hp, List.map_cons, hn, if_true]
  · exact Heap.length_updateObj g o _

/-- After the delete-then-recreate step of a kind switch, the fresh node (with
the old node's enumerable/configurable attributes) heads the property list. -/
theorem kind_switch_create_head (h : Heap) (o : ObjId) (name : String)
    (kind0 : PropKind) (e c : Bool) (ho : o < h.length) :
    ∃ rest2,
      (((ecma_delete_property h o name).updateObj o (fun obj =>
          { obj with properties :=
              (⟨name, kind0, e, c⟩ : Property) :: obj.properties })).obj o).properties =
        (⟨name, kind0, e, c⟩ : Property) :: rest2 ∧
      ((ecma_delete_property h o name).updateObj o (fun obj =>
          { obj with properties :=
              (⟨name, kind0, e, c⟩ : Property) :: obj.properties })).length = h.length := by
  have hdlen : (ecma_delete_property h o name).length = h.length :=
    Heap.length_updateObj h o _
  have ho2 : o < (ecma_delete_property h o name).length := by rw [hdlen]; exact ho
  refine ⟨((ecma_delete_property h o name).obj o).properties, ?_, ?_⟩
  · rw [Heap.obj_updateObj_self _ o _ ho2]
  · rw [Heap.length_updateObj, hdlen]

theorem find_of_head (g : Heap) (o : ObjId) (P : Property) (rest : List Property)
    (name : String) (hp : (g.obj o).properties = P :: rest)
    (hn : (P.name == name) = true) :
    ecma_find_named_property g o name = some P := by
  unfold ecma_find_named_property
  rw [hp, List.find?_cons, hn]

theorem set_accessor_get_head (g : Heap) (o : ObjId) (name : String)
    (gp : Option ObjId) (P : Property) (rest : List Property)
    (g0 s0 : Option ObjId) (ho : o < g.length)
    (hp : (g.obj o).properties = P :: rest)
    (hk : P.kind = .namedAccessor g0 s0) (hn : (P.name == name) = true) :
    ∃ rest2, ((ecma_set_accessor_get g o name gp).obj o).properties =
        ({ P with kind := .namedAccessor gp s0 } : Property) :: rest2 ∧
      (ecma_set_accessor_get g o name gp).length = g.length := by
  obtain ⟨pn, pk, pe, pc⟩ := P
  simp only [] at hk
  subst hk
  exact updateNamedProperty_head g o name
    (fun p => match p.kind with
      | .namedAccessor _ s => { p with kind := .namedAccessor gp s }
      | .namedData _ _ => p) _ rest ho hp hn

theorem set_accessor_set_head (g : Heap) (o : ObjId) (name : String)
    (sp : Option ObjId) (P : Property) (rest : List Property)
    (g0 s0 : Option ObjId) (ho : o < g.length)
    (hp : (g.obj o).properties = P :: rest)
    (hk : P.kind = .namedAccessor g0 s0) (hn : (P.name == name) = true) :
    ∃ rest2, ((ecma_set_accessor_set g o name sp).obj o).properties =
        ({ P with kind := .namedAccessor g0 sp } : Property) :: rest2 ∧
      (ecma_set_accessor_set g o name sp).length = g.length := by
  obtain ⟨pn, pk, pe, pc⟩ := P
  simp only [] at hk
  subst hk
  exact updateNamedProperty_head g o name
    (fun p => match p.kind with
      | .namedAccessor g1 _ => { p with kind := .namedAccessor g1 sp }
      | .namedData _ _ => p) _ rest ho hp hn

theorem assign_value_head (g : Heap) (o : ObjId) (name : String) (v : Value)
    (P : Property) (rest : List Property) (v0 : Value) (w0 : Bool)
    (ho : o < g.length) (hp : (g.obj o).properties = P :: rest)
    (hk : P.kind = .namedData v0 w0) (hn : (P.name == name) = true) :
    ∃ rest2,
      ((ecma_named_data_property_assign_value g o name v).obj o).properties =
        ({ P with kind := .namedData v w0 } : Property) :: rest2 ∧
      (ecma_named_data_property_assign_value g o name v).length = g.length := by
  obtain ⟨pn, pk, pe, pc⟩ := P
  simp only [] at hk
  subst hk
  exact updateNamedProperty_head g o name
    (fun p => match p.kind with
      | .namedData _ w => { p with kind := .namedData v w }
      | .namedAccessor _ _ => p) _ rest ho hp hn

theorem set_writable_head (g : Heap) (o : ObjId) (name : String) (w : Bool)
    (P : Property) (rest : List Property) (v0 : Value) (w0 : Bool)
    (ho : o < g.length) (hp : (g.obj o).properties = P :: rest)
    (hk : P.kind = .namedData v0 w0) (hn : (P.name == name) = true) :
    ∃ rest2,
      ((ecma_set_property_writable_attr g o name w).obj o).properties =
        ({ P with kind := .namedData v0 w } : Property) :: rest2 ∧
      (ecma_set_property_writable_attr g o name w).length = g.length := by
  obtain ⟨pn, pk, pe, pc⟩ := P
  simp only [] at hk
  subst hk
  exact updateNamedProperty_head g o name
    (fun p => match p.kind with
      | .namedData v1 _ => { p with kind := .namedData v1 w }
      | .namedAccessor _ _ => p) _ rest ho hp hn

/-- C2 (amended): on an object with an existing own configurable property, a
well-formed descriptor that switches the property's kind (data to accessor or
accessor to data) makes [[DefineOwnProperty]] answer true and leaves an own
property of the new kind whose enumerable and configurable attributes equal
those of the old property node — the node `ecma_delete_property` has already
removed when the implementation reads
`ecma_is_property_enumerable`/`ecma_is_property_configurable` on it — provided
the descriptor leaves enumerable and configurable undefined; a descriptor that
defines them overwrites the preserved attributes afterwards (see the
counterexample). -/
theorem define_own_property_kind_switch (h : Heap) (o : ObjId) (name : String)
    (current : Property) (desc : ecma_property_descriptor_t) (is_throw : Bool)
    (ho : o < h.length)
    (hcur : ecma_op_general_object_get_own_property h o name = some current)
    (hconf : current.configurable = true)
    (hswap : (desc.is_value_defined || desc.is_writable_defined) = !current.isNamedData)
    (hnongen : (desc.is_value_defined || desc.is_writable_defined ||
                desc.is_get_defined || desc.is_set_defined) = true)
    (hclean : ((desc.is_value_defined || desc.is_writable_defined) &&
               (desc.is_get_defined || desc.is_set_defined)) = false)
    (henum : desc.is_enumerable_defined = false)
    (hconfdef : desc.is_configurable_defined = false) :
    (ecma_op_general_object_define_own_property h o name desc is_throw).1 =
      ecma_make_simple_completion_value (.boolean true) ∧
    ecma_find_named_property
        (ecma_op_general_object_define_own_property h o name desc is_throw).2
        o name =
      some ⟨name,
        (if current.isNamedData then
          PropKind.namedAccessor (if desc.is_get_defined then desc.get_p else none)
            (if desc.is_set_defined then desc.set_p else none)
        else
          PropKind.namedData (if desc.is_value_defined then desc.value else .undefined)
            (if desc.is_writable_defined then desc.is_writable else false)),
        current.enumerable, current.configurable⟩ := by
  obtain ⟨dv, dval, dw, dwv, dee, dev, dcc, dcv, dg, dgp, ds, dsp⟩ := desc
  obtain ⟨cname, ckind, cenum, cconf⟩ := current
  simp only [] at hconf henum hconfdef
  subst hconf
  subst henum
  subst hconfdef
  cases ckind with
  | namedData v0 w0 =>
    simp only [Property.isNamedData] at hswap
    cases dv with
    | true => simp at hswap
    | false =>
    cases dw with
    | true => simp at hswap
    | false =>
    simp only [Bool.false_or] at hnongen
    cases dg with
    | false =>
      cases ds with
      | false => simp at hnongen
      | true =>
        refine ⟨by
          unfold ecma_op_general_object_define_own_property
          rw [hcur]
          simp [Property.isNamedData, Property.isNamedAccessor,
            ecma_is_property_configurable, ecma_is_property_enumerable], ?_⟩
        have hout : (ecma_op_general_object_define_own_property h o name
            ⟨false, dval, false, dwv, false, dev, false, dcv, false, dgp, true, dsp⟩
            is_throw).2 =
            ecma_set_accessor_set
              ((ecma_delete_property h o name).updateObj o (fun obj =>
                { obj with properties :=
                    (⟨name, .namedAccessor none none, cenum, true⟩ : Property)
                    :: obj.properties })) o name dsp := by
          unfold ecma_op_general_object_define_own_property
          rw [hcur]
          simp [Property.isNamedData, Property.isNamedAccessor,
            ecma_is_property_configurable, ecma_is_property_enumerable,
            ecma_create_named_accessor_property]
        rw [hout]
        obtain ⟨r1, hp1, hl1⟩ := kind_switch_create_head h o name
          (.namedAccessor none none) cenum true ho
        obtain ⟨r2, hp2, hl2⟩ := set_accessor_set_head _ o name dsp _ r1 none none
          (by rw [hl1]; exact ho) hp1 rfl (by simp)
        exact find_of_head _ o _ r2 name hp2 (by simp)
    | true =>
      cases ds with
      | false =>
        refine ⟨by
          unfold ecma_op_general_object_define_own_property
          rw [hcur]
          simp [Property.isNamedData, Property.isNamedAccessor,
            ecma_is_property_configurable, ecma_is_property_enumerable], ?_⟩
        have hout : (ecma_op_general_object_define_own_property h o name
            ⟨false, dval, false, dwv, false, dev, false, dcv, true, dgp, false, dsp⟩
            is_throw).2 =
            ecma_set_accessor_get
              ((ecma_delete_property h o name).updateObj o (fun obj =>
                { obj with properties :=
                    (⟨name, .namedAccessor none none, cenum, true⟩ : Property)
                    :: obj.properties })) o name dgp := by
          unfold ecma_op_general_object_define_own_property
          rw [hcur]
          simp [Property.isNamedData, Property.isNamedAccessor,
            ecma_is_property_configurable, ecma_is_property_enumerable,
            ecma_create_named_accessor_property]
        rw [hout]
        obtain ⟨r1, hp1, hl1⟩ := kind_switch_create_head h o name
          (.namedAccessor none none) cenum true ho
        obtain ⟨r2, hp2, hl2⟩ := set_accessor_get_head _ o name dgp _ r1 none none
          (by rw [hl1]; exact ho) hp1 rfl (by simp)
        exact find_of_head _ o _ r2 name hp2 (by simp)
      | true =>
        refine ⟨by
          unfold ecma_op_general_object_define_own_property
          rw [hcur]
          simp [Property.isNamedData, Property.isNamedAccessor,
            ecma_is_property_configurable, ecma_is_property_enumerable], ?_⟩
        have hout : (ecma_op_general_object_define_own_property h o name
            ⟨false, dval, false, dwv, false, dev, false, dcv, true, dgp, true, dsp⟩
            is_throw).2 =
            ecma_set_accessor_set
              (ecma_set_accessor_get
                ((ecma_delete_property h o name).updateObj o (fun obj =>
                { obj with properties :=
                    (⟨name, .namedAccessor none none, cenum, true⟩ : Property)
                    :: obj.properties })) o name dgp) o name dsp := by
          unfold ecma_op_general_object_define_own_property
          rw [hcur]
          simp [Property.isNamedData, Property.isNamedAccessor,
            ecma_is_property_configurable, ecma_is_property_enumerable,
            ecma_create_named_accessor_property]
        rw [hout]
        obtain ⟨r1, hp1, hl1⟩ := kind_switch_create_head h o name
          (.namedAccessor none none) cenum true ho
        obtain ⟨r2, hp2, hl2⟩ := set_accessor_get_head _ o name dgp _ r1 none none
          (by rw [hl1]; exact ho) hp1 rfl (by simp)
        obtain ⟨r3, hp3, hl3⟩ := set_accessor_set_head _ o name dsp _ r2 dgp none
          (by rw [hl2, hl1]; exact ho) hp2 rfl (by simp)
        exact find_of_head _ o _ r3 name hp3 (by simp)
  | namedAccessor g0 s0 =>
    simp only [Property.isNamedData, Bool.not_false] at hswap
    rw [hswap] at hclean
    simp only [Bool.true_and] at hclean
    have hg : dg = false := by
      cases dg with
      | false => rfl
      | true => simp at hclean
    have hs : ds = false := by
      cases ds with
      | false => rfl
      | true => simp at hclean
    subst hg
    subst hs
    cases dv with
    | false =>
      cases dw with
      | false => simp at hswap
      | true =>
        refine ⟨by
          unfold ecma_op_general_object_define_own_property
          rw [hcur]
          simp [Property.isNamedData, Property.isNamedAccessor,
            ecma_is_property_configurable, ecma_is_property_enumerable], ?_⟩
        have hout : (ecma_op_general_object_define_own_property h o name
            ⟨false, dval, true, dwv, false, dev, false, dcv, false, dgp, false, dsp⟩
            is_throw).2 =
            ecma_set_property_writable_attr
              ((ecma_delete_property h o name).updateObj o (fun obj =>
                { obj with properties :=
                    (⟨name, .namedData .undefined false, cenum, true⟩ : Property)
                    :: obj.properties })) o name dwv := by
          unfold ecma_op_general_object_define_own_property
          rw [hcur]
          simp [Property.isNamedData, Property.isNamedAccessor,
            ecma_is_property_configurable, ecma_is_property_enumerable,
            ecma_create_named_data_property]
        rw [hout]
        obtain ⟨r1, hp1, hl1⟩ := kind_switch_create_head h o name
          (.namedData .undefined false) cenum true ho
        obtain ⟨r2, hp2, hl2⟩ := set_writable_head _ o name dwv _ r1 .undefined false
          (by rw [hl1]; exact ho) hp1 rfl (by simp)
        exact find_of_head _ o _ r2 name hp2 (by simp)
    | true =>
      cases dw with
      | false =>
        refine ⟨by
          unfold ecma_op_general_object_define_own_property
          rw [hcur]
          simp [Property.isNamedData, Property.isNamedAccessor,
            ecma_is_property_configurable, ecma_is_property_enumerable], ?_⟩
        have hout : (ecma_op_general_object_define_own_property h o name
            ⟨true, dval, false, dwv, false, dev, false, dcv, false, dgp, false, dsp⟩
            is_throw).2 =
            ecma_named_data_property_assign_value
              ((ecma_delete_property h o name).updateObj o (fun obj =>
                { obj with properties :=
                    (⟨name, .namedData .undefined false, cenum, true⟩ : Property)
                    :: obj.properties })) o name dval := by
          unfold ecma_op_general_object_define_own_property
          rw [hcur]
          simp [Property.isNamedData, Property.isNamedAccessor,
            ecma_is_property_configurable, ecma_is_property_enumerable,
            ecma_create_named_data_property]
        rw [hout]
        obtain ⟨r1, hp1, hl1⟩ := kind_switch_create_head h o name
          (.namedData .undefined false) cenum true ho
        obtain ⟨r2, hp2, hl2⟩ := assign_value_head _ o name dval _ r1 .undefined false
          (by rw [hl1]; exact ho) hp1 rfl (by simp)
        exact find_of_head _ o _ r2 name hp2 (by simp)
      | true =>
        refine ⟨by
          unfold ecma_op_general_object_define_own_property
          rw [hcur]
          simp [Property.isNamedData, Property.isNamedAccessor,
            ecma_is_property_configurable, ecma_is_property_enumerable], ?_⟩
        have hout : (ecma_op_general_object_define_own_property h o name
            ⟨true, dval, true, dwv, false, dev, false, dcv, false, dgp, false, dsp⟩
            is_throw).2 =
            ecma_set_property_writable_attr
              (ecma_named_data_property_assign_value
                ((ecma_delete_property h o name).updateObj o (fun obj =>
                { obj with properties :=
                    (⟨name, .namedData .undefined false, cenum, true⟩ : Property)
                    :: obj.properties })) o name dval) o name dwv := by
          unfold ecma_op_general_object_define_own_property
          rw [hcur]
          simp [Property.isNamedData, Property.isNamedAccessor,
            ecma_is_property_configurable, ecma_is_property_enumerable,
            ecma_create_named_data_property]
        rw [hout]
        obtain ⟨r1, hp1, hl1⟩ := kind_switch_create_head h o name
          (.namedData .undefined false) cenum true ho
        obtain ⟨r2, hp2, hl2⟩ := assign_value_head _ o name dval _ r1 .undefined false
          (by rw [hl1]; exact ho) hp1 rfl (by simp)
        obtain ⟨r3, hp3, hl3⟩ := set_writable_head _ o name dwv _ r2 dval false
          (by rw [hl2, hl1]; exact ho) hp2 rfl (by simp)
        exact find_of_head _ o _ r3 name hp3 (by simp)

/-- Counterexample to C2 as stated: switching a configurable data property
(enumerable = true) to an accessor with a descriptor that also defines
enumerable = false leaves an accessor property whose enumerable attribute is
false — not equal to that of the old (deleted) node, because step 12 applies
the descriptor's enumerable after the kind switch. -/
theorem define_own_property_kind_switch_counterexample :
    ecma_find_named_property
        (ecma_op_general_object_define_own_property
          [⟨none, true, .generalObject, false, "Object",
            [⟨"p", .namedData .undefined true, true, true⟩]⟩] 0 "p"
          ⟨false, .undefined, false, false, true, false, false, false,
           true, none, false, none⟩
          false).2 0 "p" =
      some ⟨"p", .namedAccessor none none, false, true⟩ ∧
    ecma_is_property_enumerable
        (⟨"p", .namedAccessor none none, false, true⟩ : Property) ≠
      ecma_is_property_enumerable
        (⟨"p", .namedData .undefined true, true, true⟩ : Property) :=
  ⟨rfl, by decide⟩

/-- Witness for `define_own_property_kind_switch`: a get-only descriptor
switches a configurable data property to an accessor node that keeps the old
enumerable/configurable attributes. -/
theorem define_own_property_kind_switch_witness :
    (ecma_op_general_object_define_own_property
        [⟨none, true, .generalObject, false, "Object",
          [⟨"p", .namedData .undefined true, true, true⟩]⟩] 0 "p"
        ⟨false, .undefined, false, false, false, false, false, false,
         true, none, false, none⟩ false).1 =
      ecma_make_simple_completion_value (.boolean true) ∧
    ecma_find_named_property
        (ecma_op_general_object_define_own_property
          [⟨none, true, .generalObject, false, "Object",
            [⟨"p", .namedData .undefined true, true, true⟩]⟩] 0 "p"
          ⟨false, .undefined, false, false, false, false, false, false,
           true, none, false, none⟩ false).2 0 "p" =
      some ⟨"p",
        (if (⟨"p", .namedData .undefined true, true, true⟩ : Property).isNamedData then
          PropKind.namedAccessor (if true then none else none)
            (if false then (none : Option ObjId) else none)
        else
          PropKind.namedData (if false then Value.undefined else .undefined)
            (if false then false else false)),
        true, true⟩ :=
  define_own_property_kind_switch
    [⟨none, true, .generalObject, false, "Object",
      [⟨"p", .namedData .undefined true, true, true⟩]⟩] 0 "p"
    ⟨"p", .namedData .undefined true, true, true⟩
    ⟨false, .undefined, false, false, false, false, false, false,
     true, none, false, none⟩ false
    (by decide) rfl rfl rfl rfl rfl rfl rfl

/-- Counterexample to C3 as stated: for a source object on which none of the
six attribute properties is present, `ecma_op_to_property_descriptor` returns
the empty descriptor — every `*_defined` flag is false, not true. -/
theorem to_property_descriptor_counterexample :
    ecma_op_general_object_get_property
        [⟨none, true, .generalObject, false, "Object", []⟩] 1 0 "enumerable" = none ∧
    ecma_op_general_object_get_property
        [⟨none, true, .generalObject, false, "Object", []⟩] 1 0 "configurable" = none ∧
    ecma_op_general_object_get_property
        [⟨none, true, .generalObject, false, "Object", []⟩] 1 0 "value" = none ∧
    ecma_op_general_object_get_property
        [⟨none, true, .generalObject, false, "Object", []⟩] 1 0 "writable" = none ∧
    ecma_op_general_object_get_property
        [⟨none, true, .generalObject, false, "Object", []⟩] 1 0 "get" = none ∧
    ecma_op_general_object_get_property
        [⟨none, true, .generalObject, false, "Object", []⟩] 1 0 "set" = none ∧
    (ecma_op_to_property_descriptor
        (fun _ _ _ hp => (ecma_make_empty_completion_value, hp))
        [⟨none, true, .generalObject, false, "Object", []⟩] 1 (.object 0)).2.1 =
      some ecma_make_empty_property_descriptor ∧
    ecma_make_empty_property_descriptor.is_value_defined = false :=
  ⟨rfl, rfl, rfl, rfl, rfl, rfl, rfl, rfl⟩

/-- C3 (amended): `ecma_op_to_property_descriptor` starts from the empty
descriptor — all six `*_defined` flags false — and sets a flag only when the
corresponding attribute property exists on the source object; for a source
object on which none of the six attribute properties is present, the returned
completion is normal-empty and every `*_defined` flag of the returned
descriptor is false. -/
theorem bool_field_absent (call : CallOracle) (fuel : Nat) (obj_p : ObjId)
    (name : String)
    (set_field : ecma_property_descriptor_t → Bool → ecma_property_descriptor_t)
    (st : ToPropDescState)
    (habs : ecma_op_general_object_get_property st.2.2 fuel obj_p name = none) :
    ecma_op_to_property_descriptor_bool_field call fuel obj_p name set_field st = st := by
  obtain ⟨ret, desc, hh⟩ := st
  unfold ecma_op_to_property_descriptor_bool_field
  simp only [] at habs
  by_cases hthrow : ecma_is_completion_value_throw ret = true
  · simp [hthrow]
  · simp [hthrow, habs]

theorem value_field_absent (call : CallOracle) (fuel : Nat) (obj_p : ObjId)
    (st : ToPropDescState)
    (habs : ecma_op_general_object_get_property st.2.2 fuel obj_p "value" = none) :
    ecma_op_to_property_descriptor_value_field call fuel obj_p st = st := by
  obtain ⟨ret, desc, hh⟩ := st
  unfold ecma_op_to_property_descriptor_value_field
  simp only [] at habs
  by_cases hthrow : ecma_is_completion_value_throw ret = true
  · simp [hthrow]
  · simp [hthrow, habs]

theorem accessor_field_absent (call : CallOracle) (fuel : Nat) (obj_p : ObjId)
    (name : String)
    (set_field : ecma_property_descriptor_t → Option ObjId → ecma_property_descriptor_t)
    (st : ToPropDescState)
    (habs : ecma_op_general_object_get_property st.2.2 fuel obj_p name = none) :
    ecma_op_to_property_descriptor_accessor_field call fuel obj_p name set_field st = st := by
  obtain ⟨ret, desc, hh⟩ := st
  unfold ecma_op_to_property_descriptor_accessor_field
  simp only [] at habs
  by_cases hthrow : ecma_is_completion_value_throw ret = true
  · simp [hthrow]
  · simp [hthrow, habs]

theorem to_property_descriptor_all_absent (call : CallOracle) (h : Heap)
    (fuel : Nat) (obj_p : ObjId)
    (h1 : ecma_op_general_object_get_property h fuel obj_p "enumerable" = none)
    (h2 : ecma_op_general_object_get_property h fuel obj_p "configurable" = none)
    (h3 : ecma_op_general_object_get_property h fuel obj_p "value" = none)
    (h4 : ecma_op_general_object_get_property h fuel obj_p "writable" = none)
    (h5 : ecma_op_general_object_get_property h fuel obj_p "get" = none)
    (h6 : ecma_op_general_object_get_property h fuel obj_p "set" = none) :
    ecma_op_to_property_descriptor call h fuel (.object obj_p) =
      (ecma_make_empty_completion_value,
       some ecma_make_empty_property_descriptor, h) := by
  have e1 := bool_field_absent call fuel obj_p "enumerable"
    (fun d b => { d with is_enumerable_defined := true, is_enumerable := b })
    (ecma_make_empty_completion_value, ecma_make_empty_property_descriptor, h) h1
  have e2 := bool_field_absent call fuel obj_p "configurable"
    (fun d b => { d with is_configurable_defined := true, is_configurable := b })
    (ecma_make_empty_completion_value, ecma_make_empty_property_descriptor, h) h2
  have e3 := value_field_absent call fuel obj_p
    (ecma_make_empty_completion_value, ecma_make_empty_property_descriptor, h) h3
  have e4 := bool_field_absent call fuel obj_p "writable"
    (fun d b => { d with is_writable_defined := true, is_writable := b })
    (ecma_make_empty_completion_value, ecma_make_empty_property_descriptor, h) h4
  have e5 := accessor_field_absent call fuel obj_p "get"
    (fun d g => { d with is_get_defined := true, get_p := g })
    (ecma_make_empty_completion_value, ecma_make_empty_property_descriptor, h) h5
  have e6 := accessor_field_absent call fuel obj_p "set"
    (fun d s => { d with is_set_defined := true, set_p := s })
    (ecma_make_empty_completion_value, ecma_make_empty_property_descriptor, h) h6
  unfold ecma_op_to_property_descriptor
  simp only [e1, e2, e3, e4, e5, e6]
  rfl

/-- Witness for `to_property_descriptor_all_absent` at a concrete heap with a
property-less source object. -/
theorem to_property_descriptor_all_absent_witness :
    ecma_op_to_property_descriptor
        (fun _ _ _ hp => (⟨.normal, .undefined⟩, hp))
        [⟨some 1, true, .generalObject, false, "Object", []⟩,
         ⟨none, true, .generalObject, false, "Object", []⟩] 2 (.object 0) =
      (ecma_make_empty_completion_value,
       some ecma_make_empty_property_descriptor,
       [⟨some 1, true, .generalObject, false, "Object", []⟩,
        ⟨none, true, .generalObject, false, "Object", []⟩]) :=
  to_property_descriptor_all_absent
    (fun _ _ _ hp => (⟨.normal, .undefined⟩, hp))
    [⟨some 1, true, .generalObject, false, "Object", []⟩,
     ⟨none, true, .generalObject, false, "Object", []⟩] 2 0
    rfl rfl rfl rfl rfl rfl

/-- Specification-side [[DefaultValue]] loop, stated from the claim's words:
try the named methods in order; a non-normal completion from a lookup or call
propagates; a method that is absent or not callable is skipped; the first call
whose result is not an object is returned; when no attempt yields a primitive
the result is a TypeError. -/
def default_value_spec_go (call : CallOracle) (fuel : Nat) (o : ObjId) :
    List String → Heap → Completion × Heap
  | [], h => (ecma_make_standard_error_throw .typeError, h)
  | fname :: rest, h =>
    let got := ecma_op_general_object_get call h fuel o fname
    if got.1.type ≠ .normal then got
    else if ecma_op_is_callable got.2 got.1.value then
      match got.1.value with
      | .object f =>
        let called := call f (.object o) [] got.2
        if called.1.type ≠ .normal then called
        else if ¬(ecma_is_completion_value_empty called.1 = true) ∧
                ¬(ecma_is_value_object called.1.value = true) then called
        else default_value_spec_go call fuel o rest called.2
      | _ => default_value_spec_go call fuel o rest got.2
    else default_value_spec_go call fuel o rest got.2

/-- Specification-side [[DefaultValue]], stated from the claim's words: with
hint string try 'toString' then 'valueOf', with hint number 'valueOf' then
'toString'; an unspecified hint defaults to string exactly when the object's
class tag is 'Date', else to number. -/
def default_value_spec (call : CallOracle) (h : Heap) (fuel : Nat) (o : ObjId)
    (hint : PreferredTypeHint) : Completion × Heap :=
  let hint1 :=
    if hint = PreferredTypeHint.no then
      (if (h.obj o).class_tag = "Date" then PreferredTypeHint.string
       else PreferredTypeHint.number)
    else hint
  default_value_spec_go call fuel o
    (if hint1 = PreferredTypeHint.string then ["toString", "valueOf"]
     else ["valueOf", "toString"]) h

theorem default_value_spec_go_cons (call : CallOracle) (fuel : Nat) (o : ObjId)
    (fname : String) (rest : List String) (h : Heap) :
    default_value_spec_go call fuel o (fname :: rest) h =
      (match ecma_op_default_value_try call h fuel o fname with
       | .inl r => r
       | .inr h2 => default_value_spec_go call fuel o rest h2) := by
  simp only [default_value_spec_go, ecma_op_default_value_try]
  rcases hgot : ecma_op_general_object_get call h fuel o fname with ⟨gc, gh⟩
  by_cases hn : gc.type = CompletionType.normal
  · by_cases hc : ecma_op_is_callable gh gc.value = true
    · cases hval : gc.value with
      | object f =>
        rw [hval] at hc
        rcases hcall : call f (.object o) [] gh with ⟨cc, ch⟩
        by_cases hcn : cc.type = CompletionType.normal
        · by_cases he : ecma_is_completion_value_empty cc = true
          · simp [hn, hc, hval, hcall, hcn, he, ecma_is_completion_value_normal]
          · by_cases hob : ecma_is_value_object cc.value = true
            · simp [hn, hc, hval, hcall, hcn, he, hob,
                ecma_is_completion_value_normal]
            · simp [hn, hc, hval, hcall, hcn, he, hob,
                ecma_is_completion_value_normal]
        · simp [hn, hc, hval, hcall, hcn, ecma_is_completion_value_normal]
      | undefined => rw [hval] at hc; simp [ecma_op_is_callable] at hc
      | null => rw [hval] at hc; simp [ecma_op_is_callable] at hc
      | empty => rw [hval] at hc; simp [ecma_op_is_callable] at hc
      | boolean b => rw [hval] at hc; simp [ecma_op_is_callable] at hc
      | number n => rw [hval] at hc; simp [ecma_op_is_callable] at hc
      | string s => rw [hval] at hc; simp [ecma_op_is_callable] at hc
    · simp [hn, hc, ecma_is_completion_value_normal,
        ecma_is_completion_value_empty, ecma_make_empty_completion_value,
        ecma_is_value_empty]
  · simp [hn, ecma_is_completion_value_normal]

theorem default_value_spec_go_nil (call : CallOracle) (fuel : Nat) (o : ObjId)
    (h : Heap) :
    default_value_spec_go call fuel o [] h =
      (ecma_make_standard_error_throw .typeError, h) := rfl

/-- C5: for every non-lexical-environment object, the source's
`ecma_op_general_object_default_value` coincides with the specification-side
[[DefaultValue]]: with hint string it tries 'toString' then 'valueOf', with
hint number 'valueOf' then 'toString'; a method that is absent or not callable
is skipped; the first call whose result is not an object is returned; if
neither attempt yields a primitive a TypeError is thrown; an unspecified hint
defaults to string exactly when the object's class tag is 'Date', else to
number. -/
theorem default_value_refines_spec (call : CallOracle) (h : Heap) (fuel : Nat)
    (o : ObjId) (hint : PreferredTypeHint)
    (hlex : (h.obj o).isLexEnv = false) :
    ecma_op_general_object_default_value call h fuel o hint =
      default_value_spec call h fuel o hint := by
  unfold ecma_op_general_object_default_value default_value_spec
  cases hint with
  | no =>
    by_cases hdate : (h.obj o).class_tag = "Date"
    · simp [hdate, default_value_spec_go_cons, default_value_spec_go_nil,
        ecma_op_default_value_function_name]
    · simp [hdate, default_value_spec_go_cons, default_value_spec_go_nil,
        ecma_op_default_value_function_name]
  | number =>
    simp [default_value_spec_go_cons, default_value_spec_go_nil,
      ecma_op_default_value_function_name]
  | string =>
    simp [default_value_spec_go_cons, default_value_spec_go_nil,
      ecma_op_default_value_function_name]

/-- Witness for `default_value_refines_spec` at a concrete general object. -/
theorem default_value_refines_spec_witness :
    ecma_op_general_object_default_value
        (fun _ _ _ hp => (⟨.normal, .undefined⟩, hp))
        [⟨none, true, .generalObject, false, "Object", []⟩] 1 0 .number =
      default_value_spec
        (fun _ _ _ hp => (⟨.normal, .undefined⟩, hp))
        [⟨none, true, .generalObject, false, "Object", []⟩] 1 0 .number :=
  default_value_refines_spec
    (fun _ _ _ hp => (⟨.normal, .undefined⟩, hp))
    [⟨none, true, .generalObject, false, "Object", []⟩] 1 0 .number rfl

theorem get_property_mono (h : Heap) (name : String) :
    ∀ (f : Nat) (o : ObjId) (p : Property),
      ecma_op_general_object_get_property h f o name = some p →
      ecma_op_general_object_get_property h (f + 1) o name = some p := by
  intro f
  induction f with
  | zero =>
    intro o p hp
    unfold ecma_op_general_object_get_property at hp ⊢
    cases hown : ecma_op_general_object_get_own_property h o name with
    | some q =>
      rw [hown] at hp
      simpa using hp
    | none =>
      rw [hown] at hp
      simp only [] at hp
      cases hproto : (h.obj o).prototype with
      | none => rw [hproto] at hp; cases hp
      | some proto => rw [hproto] at hp; simp at hp
  | succ f ih =>
    intro o p hp
    unfold ecma_op_general_object_get_property at hp ⊢
    cases hown : ecma_op_general_object_get_own_property h o name with
    | some q =>
      rw [hown] at hp
      simpa using hp
    | none =>
      rw [hown] at hp
      simp only [] at hp ⊢
      cases hproto : (h.obj o).prototype with
      | none => rw [hproto] at hp; cases hp
      | some proto =>
        rw [hproto] at hp
        simp only [Nat.add_one] at hp ⊢
        exact ih proto p hp

theorem get_property_none_succ (h : Heap) (name : String) (f : Nat) (o : ObjId)
    (hnone : ecma_op_general_object_get_property h (f + 1) o name = none) :
    ecma_op_general_object_get_property h f o name = none := by
  cases hres : ecma_op_general_object_get_property h f o name with
  | none => rfl
  | some p =>
    rw [get_property_mono h name f o p hres] at hnone
    cases hnone

theorem get_property_none_of_absent (h : Heap) (fuel : Nat) (o : ObjId)
    (name : String)
    (hown : ecma_find_named_property h o name = none)
    (hinh : ∀ proto, (h.obj o).prototype = some proto →
      ecma_op_general_object_get_property h fuel proto name = none) :
    ecma_op_general_object_get_property h fuel o name = none := by
  unfold ecma_op_general_object_get_property ecma_op_general_object_get_own_property
  rw [hown]
  simp only []
  cases hproto : (h.obj o).prototype with
  | none => rfl
  | some proto =>
    simp only []
    cases fuel with
    | zero => rfl
    | succ f =>
      simp only []
      exact get_property_none_succ h name f proto (hinh proto hproto)

theorem Heap.setObj_obj_self (h : Heap) (o : ObjId) (ho : o < h.length) :
    h.setObj o (h.obj o) = h := by
  apply List.ext_getElem?
  intro i
  by_cases hio : o = i
  · subst hio
    rw [show (h.setObj o (h.obj o) : List EcmaObject)[o]? =
          some (h.obj o) from List.getElem?_set_self ho]
    unfold Heap.obj
    rw [List.get?_eq_getElem?, List.getElem?_eq_getElem ho]
    rfl
  · exact List.getElem?_set_ne hio

/-- C8: on an extensible object with no own and no inherited property named
`name`, [[Put]] succeeds, creating a named-data property with the given value
and writable/enumerable/configurable all true; a subsequent [[Delete]] answers
true and removes the property (restoring the original heap); and a subsequent
[[Get]] answers undefined. -/
theorem put_delete_get_roundtrip (call : CallOracle) (h : Heap) (fuel : Nat)
    (o : ObjId) (name : String) (v : Value) (is_throw : Bool)
    (ho : o < h.length)
    (hext : (h.obj o).extensible = true)
    (hown : ecma_find_named_property h o name = none)
    (hinh : ∀ proto, (h.obj o).prototype = some proto →
      ecma_op_general_object_get_property h fuel proto name = none) :
    (ecma_op_general_object_put call h fuel o name v is_throw).1 =
      ecma_make_simple_completion_value (.boolean true) ∧
    ecma_find_named_property
        (ecma_op_general_object_put call h fuel o name v is_throw).2 o name =
      some ⟨name, .namedData v true, true, true⟩ ∧
    (ecma_op_general_object_delete
        (ecma_op_general_object_put call h fuel o name v is_throw).2
        o name false).1 =
      ecma_make_simple_completion_value (.boolean true) ∧
    (ecma_op_general_object_delete
        (ecma_op_general_object_put call h fuel o name v is_throw).2
        o name false).2 = h ∧
    ecma_find_named_property
        (ecma_op_general_object_delete
          (ecma_op_general_object_put call h fuel o name v is_throw).2
          o name false).2 o name = none ∧
    (ecma_op_general_object_get call
        (ecma_op_general_object_delete
          (ecma_op_general_object_put call h fuel o name v is_throw).2
          o name false).2 fuel o name).1 =
      ecma_make_simple_completion_value .undefined := by
  have hcan : ecma_op_general_object_can_put h fuel o name = true := by
    unfold ecma_op_general_object_can_put ecma_op_general_object_get_own_property
    rw [hown]
    simp only []
    cases hproto : (h.obj o).prototype with
    | none => simpa using hext
    | some proto =>
      simp only []
      rw [hinh proto hproto]
      simpa using hext
  have hgpnone := get_property_none_of_absent h fuel o name hown hinh
  have hput : ecma_op_general_object_put call h fuel o name v is_throw =
      (ecma_make_simple_completion_value (.boolean true),
       h.updateObj o (fun obj =>
         { obj with properties :=
             (⟨name, .namedData v true, true, true⟩ : Property)
             :: obj.properties })) := by
    unfold ecma_op_general_object_put
    rw [hcan]
    rw [show ecma_op_general_object_get_own_property h o name = none from hown]
    simp only [hgpnone, Bool.not_true, Bool.false_eq_true, if_false]
    exact define_own_property_fresh_data h o name
      ⟨true, v, true, true, true, true, true, true, false, none, false, none⟩
      is_throw ho hown hext rfl
  have hobj1 : ((h.updateObj o (fun obj =>
      { obj with properties :=
          (⟨name, .namedData v true, true, true⟩ : Property)
          :: obj.properties })).obj o).properties =
      (⟨name, .namedData v true, true, true⟩ : Property)
      :: (h.obj o).properties := by
    rw [Heap.obj_updateObj_self h o _ ho]
  have hfind1 : ecma_find_named_property
      (h.updateObj o (fun obj =>
        { obj with properties :=
            (⟨name, .namedData v true, true, true⟩ : Property)
            :: obj.properties })) o name =
      some ⟨name, .namedData v true, true, true⟩ :=
    find_of_head _ o _ _ name hobj1 (by simp)
  have hdel : ecma_op_general_object_delete
      (h.updateObj o (fun obj =>
        { obj with properties :=
            (⟨name, .namedData v true, true, true⟩ : Property)
            :: obj.properties })) o name false =
      (ecma_make_simple_completion_value (.boolean true), h) := by
    unfold ecma_op_general_object_delete ecma_op_general_object_get_own_property
    rw [hfind1]
    simp only [ecma_is_property_configurable, if_true]
    have herase : ecma_delete_property
        (h.updateObj o (fun obj =>
          { obj with properties :=
              (⟨name, .namedData v true, true, true⟩ : Property)
              :: obj.properties })) o name = h := by
      unfold ecma_delete_property
      have hh1len : o < (h.updateObj o (fun obj =>
          { obj with properties :=
              (⟨name, .namedData v true, true, true⟩ : Property)
              :: obj.properties })).length := by
        rw [Heap.length_updateObj]; exact ho
      rw [show (h.updateObj o (fun obj =>
          { obj with properties :=
              (⟨name, .namedData v true, true, true⟩ : Property)
              :: obj.properties })).updateObj o (fun obj =>
            { obj with properties :=
                obj.properties.eraseP (fun p => p.name == name) }) =
          h.updateObj o (fun x =>
            { { x with properties :=
                  (⟨name, .namedData v true, true, true⟩ : Property)
                  :: x.properties } with
              properties :=
                ((⟨name, .namedData v true, true, true⟩ : Property)
                 :: x.properties).eraseP (fun p => p.name == name) })
        from Heap.updateObj_updateObj h o _ _ ho]
      have hstep : ∀ x : EcmaObject,
          ({ { x with properties :=
                (⟨name, .namedData v true, true, true⟩ : Property)
                :: x.properties } with
            properties :=
              ((⟨name, .namedData v true, true, true⟩ : Property)
               :: x.properties).eraseP (fun p => p.name == name) } : EcmaObject) =
          x := by
        intro x
        have : ((⟨name, .namedData v true, true, true⟩ : Property)
            :: x.properties).eraseP (fun p => p.name == name) = x.properties :=
          List.eraseP_cons_of_pos (by simp)
        simp [this]
      simp only [hstep]
      exact Heap.setObj_obj_self h o ho
    rw [herase]
  have hget : (ecma_op_general_object_get call h fuel o name).1 =
      ecma_make_simple_completion_value .undefined := by
    unfold ecma_op_general_object_get
    rw [hgpnone]
  simp only [hput, hdel]
  exact ⟨trivial, hfind1, trivial, trivial, hown, hget⟩

/-- Witness for `put_delete_get_roundtrip` on a fresh one-object heap. -/
theorem put_delete_get_roundtrip_witness :
    (ecma_op_general_object_put (fun _ _ _ hp => (⟨.normal, .undefined⟩, hp))
        [⟨none, true, .generalObject, false, "Object", []⟩] 0 0 "k" .null
        true).1 =
      ecma_make_simple_completion_value (.boolean true) ∧
    ecma_find_named_property
        (ecma_op_general_object_put (fun _ _ _ hp => (⟨.normal, .undefined⟩, hp))
          [⟨none, true, .generalObject, false, "Object", []⟩] 0 0 "k" .null
          true).2 0 "k" =
      some ⟨"k", .namedData .null true, true, true⟩ ∧
    (ecma_op_general_object_delete
        (ecma_op_general_object_put (fun _ _ _ hp => (⟨.normal, .undefined⟩, hp))
          [⟨none, true, .generalObject, false, "Object", []⟩] 0 0 "k" .null
          true).2 0 "k" false).1 =
      ecma_make_simple_completion_value (.boolean true) ∧
    (ecma_op_general_object_delete
        (ecma_op_general_object_put (fun _ _ _ hp => (⟨.normal, .undefined⟩, hp))
          [⟨none, true, .generalObject, false, "Object", []⟩] 0 0 "k" .null
          true).2 0 "k" false).2 =
      [⟨none, true, .generalObject, false, "Object", []⟩] ∧
    ecma_find_named_property
        (ecma_op_general_object_delete
          (ecma_op_general_object_put (fun _ _ _ hp => (⟨.normal, .undefined⟩, hp))
            [⟨none, true, .generalObject, false, "Object", []⟩] 0 0 "k" .null
            true).2 0 "k" false).2 0 "k" = none ∧
    (ecma_op_general_object_get (fun _ _ _ hp => (⟨.normal, .undefined⟩, hp))
        (ecma_op_general_object_delete
          (ecma_op_general_object_put (fun _ _ _ hp => (⟨.normal, .undefined⟩, hp))
            [⟨none, true, .generalObject, false, "Object", []⟩] 0 0 "k" .null
            true).2 0 "k" false).2 0 0 "k").1 =
      ecma_make_simple_completion_value .undefined :=
  put_delete_get_roundtrip (fun _ _ _ hp => (⟨.normal, .undefined⟩, hp))
    [⟨none, true, .generalObject, false, "Object", []⟩] 0 0 "k" .null true
    (by decide) rfl rfl (fun proto hp => by cases hp)

end Jerry
